import Mathlib

/-!
# Verification of the `mongoextjson` extended-JSON codec

This file gives a shallow embedding, in Lean 4, of the MongoDB extended JSON
encoder/decoder of the `feliixx/mongoextjson` Go package, and proves or refutes
the frozen specification claims about it.

The type-specific hook functions and encoders (`jdecBinary`, `jencNumberLong`,
`jdecDate`, ...) are translated directly from `src/extendedjson.go`.  The
generic JSON machinery that `extendedjson.go` relies on (the forked
`encoding/json` lexer, recursive-descent parser, extension registry and
struct binding) is not part of the provided sources; those parts are modelled
from the specification (sections 4.1-4.3) and from the documented behaviour of
the `encoding/json` package the repository forks, and are marked
`Modelled from the spec:` below.

External collaborators (Go standard library `strconv`, `encoding/base64`,
`encoding/hex`, `time`, and the mongo driver `primitive` types) are embedded
as concrete Lean implementations of their documented observable behaviour.
-/

set_option maxRecDepth 10000

/-! ## Decimal digit strings (Go `%d` formatting, `fmt.Fprintf`) -/

/-- The character for a single decimal digit value. -/
def digitCh (n : Nat) : Char := Char.ofNat (48 + n)

/-- Decimal digits of `n`, most significant first; `fuel` bounds recursion
(`fuel > n` always suffices). -/
def natDigits : Nat → Nat → List Char
  | 0, _ => []
  | fuel + 1, n => if n < 10 then [digitCh n] else natDigits fuel (n / 10) ++ [digitCh (n % 10)]

/-- Decimal rendering of a natural number, as Go `%d` produces it. -/
def natStr (n : Nat) : String := ⟨natDigits (n + 1) n⟩

/-- Decimal rendering of an integer, as Go `%d` produces it. -/
def intStr (n : Int) : String :=
  if n < 0 then "-" ++ natStr (-n).toNat else natStr n.toNat

/-- Numeric value of a decimal digit character. -/
def digitVal (c : Char) : Nat := c.toNat - 48

/-- Whether a character is a decimal digit. -/
def isDigitCh (c : Char) : Bool := 48 ≤ c.toNat && c.toNat ≤ 57

/-- Value of a list of decimal digit characters, most significant first. -/
def digitsVal (ds : List Char) : Nat := ds.foldl (fun acc c => 10 * acc + digitVal c) 0

/-! ## Hexadecimal (Go `%x` formatting and `encoding/hex`) -/

/-- Lowercase hex digit character for a value `n < 16`. -/
def hexCh (n : Nat) : Char := if n < 10 then Char.ofNat (48 + n) else Char.ofNat (87 + n)

/-- Hex digits of `n`, most significant first, no leading zeros (`%x` of Go
for a nonzero value); `fuel > n` suffices. -/
def hexDigitsGo : Nat → Nat → List Char
  | 0, _ => []
  | fuel + 1, n => if n < 16 then [hexCh n] else hexDigitsGo fuel (n / 16) ++ [hexCh (n % 16)]

/-- Go `fmt` `%x` rendering of an unsigned integer: lowercase hex digits,
no prefix, no padding (`0` renders as `"0"`). -/
def goHexStr (n : Nat) : String := ⟨hexDigitsGo (n + 1) n⟩

/-- `encoding/hex.EncodeToString`: every byte becomes exactly two lowercase
hex digits. -/
def hexEncodeChars : List Nat → List Char
  | [] => []
  | b :: bs => hexCh (b / 16) :: hexCh (b % 16) :: hexEncodeChars bs

/-- String form of `encoding/hex.EncodeToString`. -/
def hexEncode (bs : List Nat) : String := ⟨hexEncodeChars bs⟩

/-- Numeric value of a hex digit character (upper or lower case), if any. -/
def hexVal (c : Char) : Option Nat :=
  if 48 ≤ c.toNat && c.toNat ≤ 57 then some (c.toNat - 48)
  else if 97 ≤ c.toNat && c.toNat ≤ 102 then some (c.toNat - 87)
  else if 65 ≤ c.toNat && c.toNat ≤ 70 then some (c.toNat - 55)
  else none

/-- `encoding/hex.DecodeString`: consume pairs of hex digits into bytes;
fails on an odd length or a non-hex character. -/
def hexDecodeChars : List Char → Option (List Nat)
  | [] => some []
  | [_] => none
  | c1 :: c2 :: rest =>
    match hexVal c1, hexVal c2 with
    | some h, some l => (hexDecodeChars rest).map (fun bs => (16 * h + l) :: bs)
    | _, _ => none

/-! ## Base64 (Go `encoding/base64.StdEncoding`, as used by the json codec
for `[]byte` values) -/

/-- The standard base64 alphabet character for a value `n < 64`. -/
def b64Ch (n : Nat) : Char :=
  if n < 26 then Char.ofNat (65 + n)
  else if n < 52 then Char.ofNat (97 + n - 26)
  else if n < 62 then Char.ofNat (48 + n - 52)
  else if n = 62 then '+' else '/'

/-- Value of a base64 alphabet character, if any (`'='` has none). -/
def b64Val (c : Char) : Option Nat :=
  if 65 ≤ c.toNat && c.toNat ≤ 90 then some (c.toNat - 65)
  else if 97 ≤ c.toNat && c.toNat ≤ 122 then some (c.toNat - 97 + 26)
  else if 48 ≤ c.toNat && c.toNat ≤ 57 then some (c.toNat - 48 + 52)
  else if c = '+' then some 62
  else if c = '/' then some 63
  else none

/-- `base64.StdEncoding.EncodeToString`: 3-byte groups become 4 alphabet
characters; a trailing group of 1 or 2 bytes is padded with `'='`. -/
def b64EncodeChars : List Nat → List Char
  | [] => []
  | [a] => [b64Ch (a / 4), b64Ch (a % 4 * 16), '=', '=']
  | [a, b] => [b64Ch (a / 4), b64Ch (a % 4 * 16 + b / 16), b64Ch (b % 16 * 4), '=']
  | a :: b :: c :: rest =>
    b64Ch (a / 4) :: b64Ch (a % 4 * 16 + b / 16) :: b64Ch (b % 16 * 4 + c / 64) ::
      b64Ch (c % 64) :: b64EncodeChars rest

/-- String form of `base64.StdEncoding.EncodeToString`. -/
def b64Encode (bs : List Nat) : String := ⟨b64EncodeChars bs⟩

/-- `base64.StdEncoding` decoding: groups of four characters, `'='` padding
allowed only at the very end; fails on other shapes. -/
def b64DecodeChars : List Char → Option (List Nat)
  | [] => some []
  | w :: x :: y :: z :: rest =>
    match b64Val w, b64Val x with
    | some wv, some xv =>
      if y = '=' then
        if z = '=' && rest.isEmpty then some [wv * 4 + xv / 16] else none
      else
        match b64Val y with
        | some yv =>
          if z = '=' then
            if rest.isEmpty then some [wv * 4 + xv / 16, xv % 16 * 16 + yv / 4] else none
          else
            match b64Val z with
            | some zv =>
              (b64DecodeChars rest).map
                (fun bs => (wv * 4 + xv / 16) :: (xv % 16 * 16 + yv / 4) :: (yv % 4 * 64 + zv) :: bs)
            | none => none
        | none => none
    | _, _ => none
  | _ => none

/-! ## The bridged value types

`primitive.ObjectID` is 12 bytes; `primitive.Binary` is a subtype byte plus a
payload; `primitive.Timestamp` is two `uint32` components.  Bytes are
modelled as naturals (with `< 256` side conditions where they matter). -/

/-- Decimal128 is an external collaborator of the codec (spec section 1:
"specified only by their observable semantics").  Modelled from the spec: a
decimal128 value is identified with its canonical string form, which is what
`Decimal128.String` returns and `ParseDecimal128` reads back. -/
structure Decimal128 where
  repr : String
deriving DecidableEq

/-- Modelled from the spec: syntactic validity of a decimal128 string, the
acceptance domain of the external `primitive.ParseDecimal128` (an optionally
signed decimal mantissa with optional fraction and optional exponent, or an
infinity/NaN form).  `ParseDecimal128` of a canonical decimal128 string
succeeds and is inverse to `String()` on such values. -/
def validDecChars : List Char → Bool := fun cs =>
  let mantissa : List Char → Bool := fun l =>
    match l.span isDigitCh with
    | (intPart, rest) =>
      match rest with
      | [] => !intPart.isEmpty
      | '.' :: fracPart => !intPart.isEmpty && fracPart.all isDigitCh
      | _ => false
  let body : List Char → Bool := fun l =>
    match l.span (fun c => c ≠ 'e' && c ≠ 'E') with
    | (mant, rest) =>
      match rest with
      | [] => mantissa mant
      | _ :: expPart =>
        mantissa mant &&
          (match expPart with
           | '+' :: ds => !ds.isEmpty && ds.all isDigitCh
           | '-' :: ds => !ds.isEmpty && ds.all isDigitCh
           | ds => !ds.isEmpty && ds.all isDigitCh)
  let unsigned : List Char → Bool := fun l =>
    l = ['N', 'a', 'N'] || l = ['I', 'n', 'f'] ||
      l = ['I', 'n', 'f', 'i', 'n', 'i', 't', 'y'] || body l
  match cs with
  | '+' :: rest => unsigned rest
  | '-' :: rest => unsigned rest
  | rest => unsigned rest

/-- Validity of a decimal128 string (see `validDecChars`). -/
def validDecStr (s : String) : Bool := validDecChars s.data

/-- The external `primitive.ParseDecimal128`, modelled on the string form:
succeeds exactly on valid decimal strings. -/
def parseDecimal128 (s : String) : Option Decimal128 :=
  if validDecStr s then some ⟨s⟩ else none

/-- The external `primitive.ObjectIDFromHex` of the mongo driver: the string
must be exactly 24 hex characters and decodes to 12 bytes. -/
def objectIDFromHex (s : String) : Option (List Nat) :=
  if s.length = 24 then hexDecodeChars s.data else none

/-! ## Go `strconv.ParseInt(s, 0, 64)`

Used by `jdecBinary` for the `$type` string.  Base 0 means: `0x`/`0X` hex,
`0b`/`0B` binary, `0o`/`0O` octal, a leading `0` octal, decimal otherwise;
underscores are permitted between digits (and after a base prefix); the
value must fit in a signed 64-bit integer. -/

/-- Lowercase a latin letter character. -/
def lowerCh (c : Char) : Char :=
  if 65 ≤ c.toNat && c.toNat ≤ 90 then Char.ofNat (c.toNat + 32) else c

/-- Digit value in a given base, if the character is a valid digit there. -/
def baseDigitVal (base : Nat) (c : Char) : Option Nat :=
  match hexVal c with
  | some v => if v < base then some v else none
  | none => none

/-- Whether `c` is a lowercase hex letter after lowering (used by
`underscoreOKGo` when the literal is hexadecimal). -/
def isHexLetter (c : Char) : Bool :=
  (97 ≤ (lowerCh c).toNat && (lowerCh c).toNat ≤ 102)

/-- State machine of Go `strconv`'s `underscoreOK`, running over the
remaining characters.  `saw` is the last-seen class: `0` = start, `1` =
digit (or base prefix), `2` = underscore, `3` = other. -/
def underscoreOKLoop (hex : Bool) : List Char → Nat → Bool
  | [], saw => saw ≠ 2
  | c :: cs, saw =>
    if isDigitCh c || (hex && isHexLetter c) then underscoreOKLoop hex cs 1
    else if c = '_' then (saw = 1) && underscoreOKLoop hex cs 2
    else underscoreOKLoop hex cs 3

/-- Go `strconv`'s `underscoreOK` on a sign-stripped string: underscores may
appear only between the base prefix / a digit and a digit, and not at the
end. -/
def underscoreOKGo (cs : List Char) : Bool :=
  match cs with
  | '0' :: c2 :: rest =>
    if (lowerCh c2 = 'b' || lowerCh c2 = 'o' || lowerCh c2 = 'x') && rest ≠ [] then
      underscoreOKLoop (lowerCh c2 = 'x') rest 1
    else underscoreOKLoop false cs 0
  | _ => underscoreOKLoop false cs 0

/-- Digit-accumulation loop of Go `strconv.ParseUint`: underscores are
skipped (recorded), other characters must be digits of the base. -/
def parseUintLoop (base : Nat) : List Char → Nat → Bool → Option (Nat × Bool)
  | [], acc, us => some (acc, us)
  | c :: cs, acc, us =>
    if c = '_' then parseUintLoop base cs acc true
    else
      match baseDigitVal base c with
      | some d => parseUintLoop base cs (acc * base + d) us
      | none => none

/-- Go `strconv.ParseInt(s, 0, 64)`, as called by `jdecBinary` on the
`$type` string: optional sign, automatic base detection (`0x` hex, `0b`
binary, `0o` or a bare leading `0` octal, else decimal), legal underscores,
and a signed 64-bit range check.  Returns `none` on any error (syntax or
range), which is all the caller distinguishes. -/
def goParseInt (s : String) : Option Int :=
  match s.data with
  | [] => none
  | cs =>
    let signed : Bool × List Char :=
      match cs with
      | '+' :: r => (false, r)
      | '-' :: r => (true, r)
      | r => (false, r)
    let neg := signed.1
    let cs1 := signed.2
    if cs1.isEmpty then none
    else
      let bb : Nat × List Char :=
        match cs1 with
        | '0' :: c2 :: r2 =>
          if lowerCh c2 = 'b' && r2 ≠ [] then (2, r2)
          else if lowerCh c2 = 'o' && r2 ≠ [] then (8, r2)
          else if lowerCh c2 = 'x' && r2 ≠ [] then (16, r2)
          else (8, c2 :: r2)
        | ['0'] => (8, [])
        | r => (10, r)
      match parseUintLoop bb.1 bb.2 0 false with
      | none => none
      | some (v, us) =>
        if us && !underscoreOKGo cs1 then none
        else if neg then
          if v ≤ 2 ^ 63 then some (-(v : Int)) else none
        else
          if v ≤ 2 ^ 63 - 1 then some (v : Int) else none

/-! ## The encoders of `src/extendedjson.go`

Each function transcribes one `jenc*` function.  Go's `fbytes` format
strings are reproduced literally (braces written with `\x7b`/`\x7d`).
`jsonExt` (canonical mode, `MarshalCanonical`) and `jsonExtendedExt`
(shell/extended mode, `Marshal`) register them per concrete type as in
`init()`. -/

/-- `jencBinarySlice`: canonical encoding of a raw `[]byte` value. -/
def jencBinarySlice (b : List Nat) : String :=
  "\x7b\"$binary\":\"" ++ b64Encode b ++ "\",\"$type\":\"0x0\"\x7d"

/-- `jencBinaryType`: canonical encoding of a `primitive.Binary` value
(`%x` of the subtype byte). -/
def jencBinaryType (subtype : Nat) (data : List Nat) : String :=
  "\x7b\"$binary\":\"" ++ b64Encode data ++ "\",\"$type\":\"0x" ++ goHexStr subtype ++ "\"\x7d"

/-- `jencExtendedBinarySlice`: extended encoding of a raw `[]byte` value. -/
def jencExtendedBinarySlice (b : List Nat) : String :=
  "BinData(0,\"" ++ b64Encode b ++ "\")"

/-- `jencExtendedBinaryType`: extended encoding of a `primitive.Binary`
value; note the subtype is rendered with `%x` (lowercase hex). -/
def jencExtendedBinaryType (subtype : Nat) (data : List Nat) : String :=
  "BinData(" ++ goHexStr subtype ++ ",\"" ++ b64Encode data ++ "\")"

/-- `jencTimestamp`: canonical encoding of a `primitive.Timestamp`
(`%d` of the two `uint32` components). -/
def jencTimestamp (t i : Nat) : String :=
  "\x7b\"$timestamp\":\x7b\"t\":" ++ natStr t ++ ",\"i\":" ++ natStr i ++ "\x7d\x7d"

/-- `jencExtendedTimestamp`: extended encoding of a `primitive.Timestamp`. -/
def jencExtendedTimestamp (t i : Nat) : String :=
  "Timestamp(" ++ natStr t ++ "," ++ natStr i ++ ")"

/-- `jencRegEx`: encoding of a `primitive.Regex`; registered for both modes.
The pattern and options are interpolated with `%v`, i.e. unescaped. -/
def jencRegEx (pattern options : String) : String :=
  "\x7b\"$regex\":\"" ++ pattern ++ "\",\"$options\":\"" ++ options ++ "\"\x7d"

/-- `jencObjectID`: canonical encoding of a `primitive.ObjectID`
(its `Hex()`, lowercase). -/
def jencObjectID (id : List Nat) : String :=
  "\x7b\"$oid\":\"" ++ hexEncode id ++ "\"\x7d"

/-- `jencExtendedObjectID`: extended encoding of a `primitive.ObjectID`. -/
def jencExtendedObjectID (id : List Nat) : String :=
  "ObjectId(\"" ++ hexEncode id ++ "\")"

/-- `jencNumberLong`: canonical encoding of an `int64`; the value is quoted
exactly when `n > 1<<53`. -/
def jencNumberLong (n : Int) : String :=
  if n ≤ 2 ^ 53 then "\x7b\"$numberLong\":" ++ intStr n ++ "\x7d"
  else "\x7b\"$numberLong\":\"" ++ intStr n ++ "\"\x7d"

/-- `jencExtendedNumberLong`: extended encoding of an `int64`. -/
def jencExtendedNumberLong (n : Int) : String :=
  "NumberLong(" ++ intStr n ++ ")"

/-- `jencNumberInt`: canonical encoding of an `int32`; the value is quoted
exactly when `n > 1<<21`. -/
def jencNumberInt (n : Int) : String :=
  if n ≤ 2 ^ 21 then "\x7b\"$numberInt\":" ++ intStr n ++ "\x7d"
  else "\x7b\"$numberInt\":\"" ++ intStr n ++ "\"\x7d"

/-- `jencExtendedNumberInt`: extended encoding of an `int32` is the plain
decimal literal. -/
def jencExtendedNumberInt (n : Int) : String := intStr n

/-- `jencNumberDecimal`: canonical encoding of a `primitive.Decimal128`. -/
def jencNumberDecimal (d : Decimal128) : String :=
  "\x7b\"$numberDecimal\":\"" ++ d.repr ++ "\"\x7d"

/-- `jencExtendedNumberDecimal`: extended encoding of a
`primitive.Decimal128`. -/
def jencExtendedNumberDecimal (d : Decimal128) : String :=
  "NumberDecimal(\"" ++ d.repr ++ "\")"

/-- `jencInt`: encoding of a native `int`, registered for BOTH modes; a
value `≤ 1<<53` renders as the plain decimal literal (`%d`), a larger one
as a quoted `$numberLong` wrapper. -/
def jencInt (n : Int) : String :=
  if n ≤ 2 ^ 53 then intStr n
  else "\x7b\"$numberLong\":\"" ++ intStr n ++ "\"\x7d"

/-- `jencUndefined`: canonical encoding of `primitive.Undefined`. -/
def jencUndefined : String := "\x7b\"$undefined\":true\x7d"

/-- `jencExtendedUndefined`: extended encoding of `primitive.Undefined`. -/
def jencExtendedUndefined : String := "undefined"

/-! ## Surface syntax values

Modelled from the spec (section 4.2): the parse tree of the extended-JSON
grammar, after constructor calls have been rewritten into their synthetic
keyed-object shape and bare constants resolved.  Integer and non-integer
numeric literals are kept apart (`num` / `numF`), since fixed-width integer
binding accepts only the former. -/

inductive Konst where
  | undefined
  | minKey
  | maxKey
deriving DecidableEq

inductive Sval where
  | null
  | bool (b : Bool)
  | num (n : Int)
  | numF (raw : String)
  | str (s : String)
  | arr (elems : List Sval)
  | obj (fields : List (String × Sval))
  | konst (k : Konst)

/-- Decoded values: the generic JSON shapes plus the typed values produced
by the built-in hooks (spec section 3, `DecodedValue`). -/
inductive DVal where
  | null
  | bool (b : Bool)
  | int (n : Int)
  | numF (raw : String)
  | str (s : String)
  | arr (elems : List DVal)
  | obj (fields : List (String × DVal))
  | oid (id : List Nat)
  | binary (subtype : Nat) (data : List Nat)
  | bytes (data : List Nat)
  | time (millis : Int) (offMin : Int)
  | timestamp (t i : Nat)
  | regex (pattern options : String)
  | dec128 (d : Decimal128)
  | int64 (n : Int)
  | int32 (n : Int)
  | minKey
  | maxKey
  | undefined

/-- Decode errors (spec section 7).  Payloads (offsets, raw text) are not
modelled; each constructor corresponds to one family of error sites. -/
inductive DecErr where
  | synErr
  | bindErr
  | fuelErr
  | trailingErr
  | invalidBinary
  | invalidDate
  | invalidMinKey
  | invalidMaxKey
  | invalidUndefined
  | invalidOid
  | invalidDecimal
deriving DecidableEq

/-! ## Struct binding

Modelled from the spec (section 4.2, "Target binding") and the behaviour of
the `encoding/json` package the repository forks: object fields bind into
struct fields by exact key; a mismatched shape is an error; absent fields
keep their zero value; `null` leaves the zero value; on a field error the
remaining fields are still bound and the first error is reported.  A field
tagged `,string` expects the value quoted one extra time. -/

/-- Digit body of a canonical JSON integer literal: nonempty, all digits,
no redundant leading zero. -/
def jsonIntCore (ds : List Char) : Option Nat :=
  if ds = [] then none
  else if ¬(ds.all isDigitCh = true) then none
  else if 2 ≤ ds.length ∧ ds.head? = some '0' then none
  else some (digitsVal ds)

/-- A canonical JSON integer literal: optional `-`, digits, no redundant
leading zero.  Returns its value. -/
def jsonIntChars (cs : List Char) : Option Int :=
  match cs with
  | [] => none
  | c :: ds =>
    if c = '-' then (jsonIntCore ds).map (fun n => -(n : Int))
    else (jsonIntCore (c :: ds)).map (fun n => (n : Int))

/-- Whether a character list is a valid JSON number literal (integer or
floating point). -/
def jsonNumValid (cs : List Char) : Bool :=
  let afterSign := match cs with | '-' :: r => r | r => r
  match afterSign with
  | [] => false
  | c :: rest =>
    if !isDigitCh c then false
    else
      let sp := rest.span isDigitCh
      if c = '0' && !sp.1.isEmpty then false
      else
        let afterFrac : Option (List Char) :=
          match sp.2 with
          | '.' :: l2 =>
            let sp2 := l2.span isDigitCh
            if sp2.1.isEmpty then none else some sp2.2
          | l2 => some l2
        match afterFrac with
        | none => false
        | some r3 =>
          match r3 with
          | [] => true
          | e :: r4 =>
            (e = 'e' || e = 'E') &&
              (match r4 with
               | '+' :: ds2 => !ds2.isEmpty && ds2.all isDigitCh
               | '-' :: ds2 => !ds2.isEmpty && ds2.all isDigitCh
               | ds2 => !ds2.isEmpty && ds2.all isDigitCh)

/-- Unescape the body of a JSON string literal; the input must end exactly
at the closing quote. -/
def jsonUnquoteLoop : List Char → List Char → Option String
  | acc, [] => none
  | acc, c :: cs =>
    if c = '"' then if cs.isEmpty then some ⟨acc⟩ else none
    else if c = '\\' then
      match cs with
      | [] => none
      | e :: cs2 =>
        if e = 'u' then
          match cs2 with
          | h1 :: h2 :: h3 :: h4 :: cs3 =>
            match hexVal h1, hexVal h2, hexVal h3, hexVal h4 with
            | some v1, some v2, some v3, some v4 =>
              jsonUnquoteLoop (acc ++ [Char.ofNat (((v1 * 16 + v2) * 16 + v3) * 16 + v4)]) cs3
            | _, _, _, _ => none
          | _ => none
        else
          match escCh e with
          | some ec => jsonUnquoteLoop (acc ++ [ec]) cs2
          | none => none
    else if c.toNat < 32 then none
    else jsonUnquoteLoop (acc ++ [c]) cs
where
  /-- The single-character JSON escapes. -/
  escCh (c : Char) : Option Char :=
    if c = 'n' then some '\n'
    else if c = 't' then some '\t'
    else if c = 'r' then some '\r'
    else if c = 'b' then some (Char.ofNat 8)
    else if c = 'f' then some (Char.ofNat 12)
    else if c = '"' then some '"'
    else if c = '\\' then some '\\'
    else if c = '/' then some '/'
    else none

/-- Whole-string JSON string literal (used by the `,string` tag on a Go
`string` field: the payload must itself be a quoted JSON string). -/
def jsonUnquote (s : String) : Option String :=
  match s.data with
  | c :: rest => if c = '"' then jsonUnquoteLoop [] rest else none
  | [] => none

/-- Bind a value into an `int64` field. -/
def bindI64 : Sval → Option Int
  | .num n => if -(2 ^ 63) ≤ n && n < 2 ^ 63 then some n else none
  | .null => some 0
  | _ => none

/-- Bind a value into an `int32` field. -/
def bindI32 : Sval → Option Int
  | .num n => if -(2 ^ 31) ≤ n && n < 2 ^ 31 then some n else none
  | .null => some 0
  | _ => none

/-- Bind a value into an `int64` field tagged `,string`: the value must be a
string holding a JSON integer. -/
def bindI64Str : Sval → Option Int
  | .str s =>
    match jsonIntChars s.data with
    | some n => if -(2 ^ 63) ≤ n && n < 2 ^ 63 then some n else none
    | none => none
  | .null => some 0
  | _ => none

/-- Bind a value into an `int32` field tagged `,string`. -/
def bindI32Str : Sval → Option Int
  | .str s =>
    match jsonIntChars s.data with
    | some n => if -(2 ^ 31) ≤ n && n < 2 ^ 31 then some n else none
    | none => none
  | .null => some 0
  | _ => none

/-- Bind a value into a `string` field. -/
def bindStr : Sval → Option String
  | .str s => some s
  | .null => some ""
  | _ => none

/-- Bind a value into a `string` field tagged `,string`: the payload must be
a doubly-quoted string (this is why `jdecNumberDecimal`'s first attempt can
never match a singly-quoted value). -/
def bindStrQ : Sval → Option String
  | .str s => jsonUnquote s
  | .null => some ""
  | _ => none

/-- Bind a value into a `bool` field. -/
def bindBool : Sval → Option Bool
  | .bool b => some b
  | .null => some false
  | _ => none

/-- Bind a value into a `[]byte` field: a string is base64-decoded; `null`
leaves the slice nil.  The outer `Option` is failure; the inner one
distinguishes a nil slice. -/
def bindBytes : Sval → Option (Option (List Nat))
  | .str s => (b64DecodeChars s.data).map some
  | .null => some none
  | _ => none

/-- Keep the first binding error. -/
def keepErr (e : Option DecErr) (e2 : DecErr) : Option DecErr :=
  match e with
  | some _ => e
  | none => some e2

/-! ## The Go `time` model

A `time.Time` value is represented by its instant (milliseconds since the
Unix epoch; the codec never produces sub-millisecond times) and the fixed
zone offset in minutes carried for display. -/

/-- Whether a year is a leap year (proleptic Gregorian). -/
def isLeapYear (y : Int) : Bool := y % 4 = 0 && (y % 100 ≠ 0 || y % 400 = 0)

/-- Days in a month. -/
def daysInMonth (y m : Int) : Int :=
  if m = 2 then (if isLeapYear y then 29 else 28)
  else if m = 4 || m = 6 || m = 9 || m = 11 then 30
  else 31

/-- Days from 1970-01-01 to the given civil date (standard civil-from-days
inverse, Hinnant's algorithm). -/
def daysFromCivil (y m d : Int) : Int :=
  let y2 := if m ≤ 2 then y - 1 else y
  let era := (if 0 ≤ y2 then y2 else y2 - 399).tdiv 400
  let yoe := y2 - era * 400
  let mp := (m + 9) % 12
  let doy := (153 * mp + 2).tdiv 5 + d - 1
  let doe := yoe * 365 + yoe.tdiv 4 - yoe.tdiv 100 + doy
  era * 146097 + doe - 719468

/-- Read exactly `k` decimal digits. -/
def readDigits : Nat → List Char → Option (Nat × List Char)
  | 0, cs => some (0, cs)
  | k + 1, [] => none
  | k + 1, c :: cs =>
    if isDigitCh c then
      (readDigits k cs).map (fun p => (digitVal c * 10 ^ k + p.1, p.2))
    else none

/-- Expect a specific character. -/
def expectCh (c : Char) : List Char → Option (List Char)
  | [] => none
  | c2 :: cs => if c2 = c then some cs else none

/-- Read an optional fractional second (`.` plus 1-9 digits) as
nanoseconds. -/
def readFrac : List Char → Nat × List Char
  | '.' :: cs =>
    let sp := cs.span isDigitCh
    if sp.1.isEmpty || sp.1.length > 9 then (0, '.' :: cs)
    else (digitsVal sp.1 * 10 ^ (9 - sp.1.length), sp.2)
  | cs => (0, cs)

/-- Whether the fractional part (if the input starts with `.`) is
syntactically acceptable. -/
def fracOK : List Char → Bool
  | '.' :: cs =>
    let sp := cs.span isDigitCh
    !sp.1.isEmpty && sp.1.length ≤ 9
  | _ => true

/-- The external `time.Parse` with the layout
`"2006-01-02T15:04:05.999Z07:00"` (`jdateFormat`): date, time, optional
fractional second, then `Z` or a `±hh:mm` offset; field ranges are
validated.  Returns the instant in epoch milliseconds and the zone offset
in minutes. -/
def parseRFC3339Millis (s : String) : Option (Int × Int) :=
  match readDigits 4 s.data with
  | none => none
  | some (y, r1) =>
    match expectCh '-' r1 with
    | none => none
    | some r2 =>
      match readDigits 2 r2 with
      | none => none
      | some (mo, r3) =>
        match expectCh '-' r3 with
        | none => none
        | some r4 =>
          match readDigits 2 r4 with
          | none => none
          | some (d, r5) =>
            match expectCh 'T' r5 with
            | none => none
            | some r6 =>
              match readDigits 2 r6 with
              | none => none
              | some (h, r7) =>
                match expectCh ':' r7 with
                | none => none
                | some r8 =>
                  match readDigits 2 r8 with
                  | none => none
                  | some (mi, r9) =>
                    match expectCh ':' r9 with
                    | none => none
                    | some r10 =>
                      match readDigits 2 r10 with
                      | none => none
                      | some (se, r11) =>
                        if !fracOK r11 then none
                        else
                          let fr := readFrac r11
                          let nanos := fr.1
                          let offM : Option Int :=
                            match fr.2 with
                            | ['Z'] => some 0
                            | '+' :: rz =>
                              match readDigits 2 rz with
                              | some (zh, rz2) =>
                                match expectCh ':' rz2 with
                                | some rz3 =>
                                  match readDigits 2 rz3 with
                                  | some (zm, []) => some ((zh : Int) * 60 + zm)
                                  | _ => none
                                | none => none
                              | none => none
                            | '-' :: rz =>
                              match readDigits 2 rz with
                              | some (zh, rz2) =>
                                match expectCh ':' rz2 with
                                | some rz3 =>
                                  match readDigits 2 rz3 with
                                  | some (zm, []) => some (-((zh : Int) * 60 + zm))
                                  | _ => none
                                | none => none
                              | none => none
                            | _ => none
                          match offM with
                          | none => none
                          | some off =>
                            if 1 ≤ mo && mo ≤ 12 && 1 ≤ d &&
                                (d : Int) ≤ daysInMonth y mo && h ≤ 23 && mi ≤ 59 && se ≤ 59 then
                              some (daysFromCivil y mo d * 86400000 +
                                ((h : Int) * 3600 + (mi : Int) * 60 + se) * 1000 +
                                (nanos : Int) / 1000000 - off * 60000, off)
                            else none

/-- The external `time.Parse` with the layout `"2006-01-02"`: a bare civil
date, interpreted at midnight UTC. -/
def parseDateOnly (s : String) : Option (Int × Int) :=
  match readDigits 4 s.data with
  | none => none
  | some (y, r1) =>
    match expectCh '-' r1 with
    | none => none
    | some r2 =>
      match readDigits 2 r2 with
      | none => none
      | some (mo, r3) =>
        match expectCh '-' r3 with
        | none => none
        | some r4 =>
          match readDigits 2 r4 with
          | none => none
          | some (d, r5) =>
            if r5.isEmpty && 1 ≤ mo && mo ≤ 12 && 1 ≤ d && (d : Int) ≤ daysInMonth y mo then
              some (daysFromCivil y mo d * 86400000, 0)
            else none

/-- `time.Unix(n/1000, n%1000*1e6).UTC()` from `jdecDate`: Go's `/` and `%`
truncate toward zero; the resulting instant re-assembles to exactly `n`
milliseconds after the epoch, in UTC. -/
def timeUnixMillisUTC (n : Int) : DVal :=
  .time (1000 * n.tdiv 1000 + (n.tmod 1000 * 1000000).tdiv 1000000) 0

/-! ## The keyed hooks of `src/extendedjson.go`

Each `jdec*` function receives the span of the whole triggering object.  In
this embedding the span arrives already parsed as an `Sval`; the hook's
`jdec` call into its Go struct is rendered by an explicit field walk
(`bind*Fields`), faithful to the struct tags in the source. -/

/-- Field walk for `jdecMinKey`'s struct (`N int64` under `$minKey`). -/
def bindMinKeyFields : List (String × Sval) → Int → Option DecErr → Int × Option DecErr
  | [], n, e => (n, e)
  | (k, v) :: rest, n, e =>
    if k = "$minKey" then
      match bindI64 v with
      | some m => bindMinKeyFields rest m e
      | none => bindMinKeyFields rest n (keepErr e .bindErr)
    else bindMinKeyFields rest n e

/-- `jdec` into `jdecMinKey`'s struct. -/
def bindMinKeyStruct : Sval → Int × Option DecErr
  | .obj fs => bindMinKeyFields fs 0 none
  | .null => (0, none)
  | _ => (0, some .bindErr)

/-- `jdecMinKey`: decodes `$minKey` and demands the value be exactly 1. -/
def jdecMinKey (data : Sval) : Except DecErr DVal :=
  match bindMinKeyStruct data with
  | (_, some e) => .error e
  | (n, none) => if n ≠ 1 then .error .invalidMinKey else .ok .minKey

/-- Field walk for `jdecMaxKey`'s struct (`N int64` under `$maxKey`). -/
def bindMaxKeyFields : List (String × Sval) → Int → Option DecErr → Int × Option DecErr
  | [], n, e => (n, e)
  | (k, v) :: rest, n, e =>
    if k = "$maxKey" then
      match bindI64 v with
      | some m => bindMaxKeyFields rest m e
      | none => bindMaxKeyFields rest n (keepErr e .bindErr)
    else bindMaxKeyFields rest n e

/-- `jdec` into `jdecMaxKey`'s struct. -/
def bindMaxKeyStruct : Sval → Int × Option DecErr
  | .obj fs => bindMaxKeyFields fs 0 none
  | .null => (0, none)
  | _ => (0, some .bindErr)

/-- `jdecMaxKey`: decodes `$maxKey` and demands the value be exactly 1. -/
def jdecMaxKey (data : Sval) : Except DecErr DVal :=
  match bindMaxKeyStruct data with
  | (_, some e) => .error e
  | (n, none) => if n ≠ 1 then .error .invalidMaxKey else .ok .maxKey

/-- Field walk for `jdecUndefined`'s struct (`B bool` under `$undefined`). -/
def bindUndefinedFields : List (String × Sval) → Bool → Option DecErr → Bool × Option DecErr
  | [], b, e => (b, e)
  | (k, v) :: rest, b, e =>
    if k = "$undefined" then
      match bindBool v with
      | some b2 => bindUndefinedFields rest b2 e
      | none => bindUndefinedFields rest b (keepErr e .bindErr)
    else bindUndefinedFields rest b e

/-- `jdec` into `jdecUndefined`'s struct. -/
def bindUndefinedStruct : Sval → Bool × Option DecErr
  | .obj fs => bindUndefinedFields fs false none
  | .null => (false, none)
  | _ => (false, some .bindErr)

/-- `jdecUndefined`: decodes `$undefined`, requiring the value `true`. -/
def jdecUndefined (data : Sval) : Except DecErr DVal :=
  match bindUndefinedStruct data with
  | (_, some e) => .error e
  | (b, none) => if !b then .error .invalidUndefined else .ok .undefined

/-- Field walk for `jdecRegEx`'s struct (`Regex`, `Options` strings). -/
def bindRegexFields :
    List (String × Sval) → String × String → Option DecErr → (String × String) × Option DecErr
  | [], po, e => (po, e)
  | (k, v) :: rest, (p, o), e =>
    if k = "$regex" then
      match bindStr v with
      | some p2 => bindRegexFields rest (p2, o) e
      | none => bindRegexFields rest (p, o) (keepErr e .bindErr)
    else if k = "$options" then
      match bindStr v with
      | some o2 => bindRegexFields rest (p, o2) e
      | none => bindRegexFields rest (p, o) (keepErr e .bindErr)
    else bindRegexFields rest (p, o) e

/-- `jdec` into `jdecRegEx`'s struct. -/
def bindRegexStruct : Sval → (String × String) × Option DecErr
  | .obj fs => bindRegexFields fs ("", "") none
  | .null => (("", ""), none)
  | _ => (("", ""), some .bindErr)

/-- `jdecRegEx`: builds a `primitive.Regex` from `$regex`/`$options`. -/
def jdecRegEx (data : Sval) : Except DecErr DVal :=
  match bindRegexStruct data with
  | (_, some e) => .error e
  | ((p, o), none) => .ok (.regex p o)

/-- Inner field walk for `jdecTimestamp` (`t`, `i` as `int32`). -/
def bindTsInner : List (String × Sval) → Int × Int → Option DecErr → (Int × Int) × Option DecErr
  | [], ti, e => (ti, e)
  | (k, v) :: rest, (t, i), e =>
    if k = "t" then
      match bindI32 v with
      | some m => bindTsInner rest (m, i) e
      | none => bindTsInner rest (t, i) (keepErr e .bindErr)
    else if k = "i" then
      match bindI32 v with
      | some m => bindTsInner rest (t, m) e
      | none => bindTsInner rest (t, i) (keepErr e .bindErr)
    else bindTsInner rest (t, i) e

/-- Outer field walk for `jdecTimestamp` (the struct under `$timestamp`). -/
def bindTsFields : List (String × Sval) → Int × Int → Option DecErr → (Int × Int) × Option DecErr
  | [], ti, e => (ti, e)
  | (k, v) :: rest, ti, e =>
    if k = "$timestamp" then
      match v with
      | .obj g =>
        bindTsFields rest (bindTsInner g ti e).1 (bindTsInner g ti e).2
      | .null => bindTsFields rest ti e
      | _ => bindTsFields rest ti (keepErr e .bindErr)
    else bindTsFields rest ti e

/-- `jdec` into `jdecTimestamp`'s struct. -/
def bindTsStruct : Sval → (Int × Int) × Option DecErr
  | .obj fs => bindTsFields fs (0, 0) none
  | .null => ((0, 0), none)
  | _ => ((0, 0), some .bindErr)

/-- `jdecTimestamp`: reads `t`/`i` as `int32` and converts them with
`uint32(...)`. -/
def jdecTimestamp (data : Sval) : Except DecErr DVal :=
  match bindTsStruct data with
  | (_, some e) => .error e
  | ((t, i), none) => .ok (.timestamp (t % 4294967296).toNat (i % 4294967296).toNat)

/-- Inner field walk for `jdecObjectID`'s `Func` struct (`ID` under `Id`). -/
def bindOidInner : List (String × Sval) → String → Option DecErr → String × Option DecErr
  | [], s, e => (s, e)
  | (k, v) :: rest, s, e =>
    if k = "Id" then
      match bindStr v with
      | some s2 => bindOidInner rest s2 e
      | none => bindOidInner rest s (keepErr e .bindErr)
    else bindOidInner rest s e

/-- Outer field walk for `jdecObjectID` (`$oid` string, `$oidFunc` struct). -/
def bindOidFields :
    List (String × Sval) → String × String → Option DecErr → (String × String) × Option DecErr
  | [], sf, e => (sf, e)
  | (k, v) :: rest, (s, f), e =>
    if k = "$oid" then
      match bindStr v with
      | some s2 => bindOidFields rest (s2, f) e
      | none => bindOidFields rest (s, f) (keepErr e .bindErr)
    else if k = "$oidFunc" then
      match v with
      | .obj g =>
        bindOidFields rest (s, (bindOidInner g f e).1) (bindOidInner g f e).2
      | .null => bindOidFields rest (s, f) e
      | _ => bindOidFields rest (s, f) (keepErr e .bindErr)
    else bindOidFields rest (s, f) e

/-- `jdec` into `jdecObjectID`'s struct. -/
def bindOidStruct : Sval → (String × String) × Option DecErr
  | .obj fs => bindOidFields fs ("", "") none
  | .null => (("", ""), none)
  | _ => (("", ""), some .bindErr)

/-- `jdecObjectID`: takes `$oid` (or the `ObjectId(...)` rewrite
`$oidFunc.Id`) and applies `primitive.ObjectIDFromHex`. -/
def jdecObjectID (data : Sval) : Except DecErr DVal :=
  match bindOidStruct data with
  | (_, some e) => .error e
  | ((s, f), none) =>
    let id := if s = "" then f else s
    match objectIDFromHex id with
    | some bs => .ok (.oid bs)
    | none => .error .invalidOid

/-- Generic walk for the number wrappers: the keyed field and the `N` field
of the `Func` struct, with a selectable leaf binder (`,string` or plain). -/
def bindNumInner (leaf : Sval → Option Int) :
    List (String × Sval) → Int → Option DecErr → Int × Option DecErr
  | [], n, e => (n, e)
  | (k, v) :: rest, n, e =>
    if k = "N" then
      match leaf v with
      | some m => bindNumInner leaf rest m e
      | none => bindNumInner leaf rest n (keepErr e .bindErr)
    else bindNumInner leaf rest n e

/-- Outer walk for the number wrappers (`key` and `key ++ "Func"`). -/
def bindNumFields (key : String) (leaf : Sval → Option Int) :
    List (String × Sval) → Int × Int → Option DecErr → (Int × Int) × Option DecErr
  | [], nf, e => (nf, e)
  | (k, v) :: rest, (n, f), e =>
    if k = key then
      match leaf v with
      | some m => bindNumFields key leaf rest (m, f) e
      | none => bindNumFields key leaf rest (n, f) (keepErr e .bindErr)
    else if k = key ++ "Func" then
      match v with
      | .obj g =>
        bindNumFields key leaf rest (n, (bindNumInner leaf g f e).1) (bindNumInner leaf g f e).2
      | .null => bindNumFields key leaf rest (n, f) e
      | _ => bindNumFields key leaf rest (n, f) (keepErr e .bindErr)
    else bindNumFields key leaf rest (n, f) e

/-- `jdec` into a number-wrapper struct. -/
def bindNumStruct (key : String) (leaf : Sval → Option Int) : Sval → (Int × Int) × Option DecErr
  | .obj fs => bindNumFields key leaf fs (0, 0) none
  | .null => ((0, 0), none)
  | _ => ((0, 0), some .bindErr)

/-- `jdecNumberLong`: first binds with `,string` fields, falling back to the
plain-number struct on error; returns the keyed value if nonzero, else the
constructor value. -/
def jdecNumberLong (data : Sval) : Except DecErr DVal :=
  match bindNumStruct "$numberLong" bindI64Str data with
  | ((n, f), none) => .ok (.int64 (if n ≠ 0 then n else f))
  | (_, some _) =>
    match bindNumStruct "$numberLong" bindI64 data with
    | ((n, f), none) => .ok (.int64 (if n ≠ 0 then n else f))
    | (_, some e) => .error e

/-- `jdecNumberInt`: as `jdecNumberLong` with `int32` fields. -/
def jdecNumberInt (data : Sval) : Except DecErr DVal :=
  match bindNumStruct "$numberInt" bindI32Str data with
  | ((n, f), none) => .ok (.int32 (if n ≠ 0 then n else f))
  | (_, some _) =>
    match bindNumStruct "$numberInt" bindI32 data with
    | ((n, f), none) => .ok (.int32 (if n ≠ 0 then n else f))
    | (_, some e) => .error e

/-- String-leaf walk (inner `N`) for `jdecNumberDecimal`. -/
def bindDecInner (leaf : Sval → Option String) :
    List (String × Sval) → String → Option DecErr → String × Option DecErr
  | [], n, e => (n, e)
  | (k, v) :: rest, n, e =>
    if k = "N" then
      match leaf v with
      | some m => bindDecInner leaf rest m e
      | none => bindDecInner leaf rest n (keepErr e .bindErr)
    else bindDecInner leaf rest n e

/-- Outer walk for `jdecNumberDecimal`. -/
def bindDecFields (leaf : Sval → Option String) :
    List (String × Sval) → String × String → Option DecErr → (String × String) × Option DecErr
  | [], nf, e => (nf, e)
  | (k, v) :: rest, (n, f), e =>
    if k = "$numberDecimal" then
      match leaf v with
      | some m => bindDecFields leaf rest (m, f) e
      | none => bindDecFields leaf rest (n, f) (keepErr e .bindErr)
    else if k = "$numberDecimalFunc" then
      match v with
      | .obj g =>
        bindDecFields leaf rest (n, (bindDecInner leaf g f e).1) (bindDecInner leaf g f e).2
      | .null => bindDecFields leaf rest (n, f) e
      | _ => bindDecFields leaf rest (n, f) (keepErr e .bindErr)
    else bindDecFields leaf rest (n, f) e

/-- `jdec` into `jdecNumberDecimal`'s struct. -/
def bindDecStruct (leaf : Sval → Option String) : Sval → (String × String) × Option DecErr
  | .obj fs => bindDecFields leaf fs ("", "") none
  | .null => (("", ""), none)
  | _ => (("", ""), some .bindErr)

/-- Tail of `jdecNumberDecimal`: `ParseDecimal128(v.N)`, falling back to
`ParseDecimal128(v.Func.N)` on error. -/
def finishDecimal (n f : String) : Except DecErr DVal :=
  match parseDecimal128 n with
  | some d => .ok (.dec128 d)
  | none =>
    match parseDecimal128 f with
    | some d => .ok (.dec128 d)
    | none => .error .invalidDecimal

/-- `jdecNumberDecimal`: note both struct attempts carry `string` fields
(the first tagged `,string`), so a native-number payload fails both. -/
def jdecNumberDecimal (data : Sval) : Except DecErr DVal :=
  match bindDecStruct bindStrQ data with
  | ((n, f), none) => finishDecimal n f
  | (_, some _) =>
    match bindDecStruct bindStr data with
    | ((n, f), none) => finishDecimal n f
    | (_, some e) => .error e

/-- Field walk for `jdecBinary`'s struct: `$binary` (`[]byte`), `$type`
(`string`), and the `$binaryFunc` struct holding `$binary` (`[]byte`) and
`$type` (`int64`). -/
def bindBinInner :
    List (String × Sval) → Option (List Nat) × Int → Option DecErr →
      (Option (List Nat) × Int) × Option DecErr
  | [], bt, e => (bt, e)
  | (k, v) :: rest, (b, t), e =>
    if k = "$binary" then
      match bindBytes v with
      | some b2 => bindBinInner rest (b2, t) e
      | none => bindBinInner rest (b, t) (keepErr e .bindErr)
    else if k = "$type" then
      match bindI64 v with
      | some t2 => bindBinInner rest (b, t2) e
      | none => bindBinInner rest (b, t) (keepErr e .bindErr)
    else bindBinInner rest (b, t) e

/-- Outer field walk for `jdecBinary`. -/
def bindBinFields :
    List (String × Sval) → Option (List Nat) × String × Option (List Nat) × Int →
      Option DecErr → (Option (List Nat) × String × Option (List Nat) × Int) × Option DecErr
  | [], st, e => (st, e)
  | (k, v) :: rest, (b, t, fb, ft), e =>
    if k = "$binary" then
      match bindBytes v with
      | some b2 => bindBinFields rest (b2, t, fb, ft) e
      | none => bindBinFields rest (b, t, fb, ft) (keepErr e .bindErr)
    else if k = "$type" then
      match bindStr v with
      | some t2 => bindBinFields rest (b, t2, fb, ft) e
      | none => bindBinFields rest (b, t, fb, ft) (keepErr e .bindErr)
    else if k = "$binaryFunc" then
      match v with
      | .obj g =>
        bindBinFields rest (b, t, (bindBinInner g (fb, ft) e).1.1, (bindBinInner g (fb, ft) e).1.2)
          (bindBinInner g (fb, ft) e).2
      | .null => bindBinFields rest (b, t, fb, ft) e
      | _ => bindBinFields rest (b, t, fb, ft) (keepErr e .bindErr)
    else bindBinFields rest (b, t, fb, ft) e

/-- `jdec` into `jdecBinary`'s struct. -/
def bindBinStruct : Sval → (Option (List Nat) × String × Option (List Nat) × Int) × Option DecErr
  | .obj fs => bindBinFields fs (none, "", none, 0) none
  | .null => ((none, "", none, 0), none)
  | _ => ((none, "", none, 0), some .bindErr)

/-- The tail of `jdecBinary` after `binData`/`binKind` are fixed: subtype 0
returns the raw bytes, an out-of-range subtype is an error. -/
def finishBinary (binKind : Int) (binData : List Nat) : Except DecErr DVal :=
  if binKind = 0 then .ok (.bytes binData)
  else if binKind < 0 || binKind > 255 then .error .invalidBinary
  else .ok (.binary binKind.toNat binData)

/-- `jdecBinary`: keyed `$binary`/`$type` and constructor `$binaryFunc`
forms; an absent or empty `$type` with a present `$binary` returns the raw
bytes directly; otherwise the `$type` string goes through
`strconv.ParseInt(s, 0, 64)` with parse failure mapped to -1. -/
def jdecBinary (data : Sval) : Except DecErr DVal :=
  match bindBinStruct data with
  | (_, some e) => .error e
  | ((b, t, fb, ft), none) =>
    if t = "" && b = none then
      finishBinary ft (fb.getD [])
    else if t = "" then
      .ok (.bytes (b.getD []))
    else
      finishBinary ((goParseInt t).getD (-1)) (b.getD [])

/-- Field walk for `jdecDate`'s first struct (`S string` under `$date`,
`Func.S string` under `$dateFunc`). -/
def bindDateVFields :
    List (String × Sval) → String × String → Option DecErr → (String × String) × Option DecErr
  | [], sf, e => (sf, e)
  | (k, v) :: rest, (s, f), e =>
    if k = "$date" then
      match bindStr v with
      | some s2 => bindDateVFields rest (s2, f) e
      | none => bindDateVFields rest (s, f) (keepErr e .bindErr)
    else if k = "$dateFunc" then
      match v with
      | .obj g =>
        bindDateVFields rest (s, (bindOidInnerS g f e).1) (bindOidInnerS g f e).2
      | .null => bindDateVFields rest (s, f) e
      | _ => bindDateVFields rest (s, f) (keepErr e .bindErr)
    else bindDateVFields rest (s, f) e
where
  /-- Inner walk for the `Func` struct's `S` field (a string). -/
  bindOidInnerS : List (String × Sval) → String → Option DecErr → String × Option DecErr
    | [], s, e => (s, e)
    | (k, v) :: rest, s, e =>
      if k = "S" then
        match bindStr v with
        | some s2 => bindOidInnerS rest s2 e
        | none => bindOidInnerS rest s (keepErr e .bindErr)
      else bindOidInnerS rest s e

/-- `jdec` into `jdecDate`'s first struct. -/
def bindDateVStruct : Sval → (String × String) × Option DecErr
  | .obj fs => bindDateVFields fs ("", "") none
  | .null => (("", ""), none)
  | _ => (("", ""), some .bindErr)

/-- Inner walk for `jdecDate`'s second struct under `$date`
(`N int64` with the `$numberLong,string` tag). -/
def bindDateNInner : List (String × Sval) → Int → Option DecErr → Int × Option DecErr
  | [], n, e => (n, e)
  | (k, v) :: rest, n, e =>
    if k = "$numberLong" then
      match bindI64Str v with
      | some m => bindDateNInner rest m e
      | none => bindDateNInner rest n (keepErr e .bindErr)
    else bindDateNInner rest n e

/-- Inner walk for `jdecDate`'s second struct under `$dateFunc`
(`S int64`, plain). -/
def bindDateSInner : List (String × Sval) → Int → Option DecErr → Int × Option DecErr
  | [], n, e => (n, e)
  | (k, v) :: rest, n, e =>
    if k = "S" then
      match bindI64 v with
      | some m => bindDateSInner rest m e
      | none => bindDateSInner rest n (keepErr e .bindErr)
    else bindDateSInner rest n e

/-- Outer walk for `jdecDate`'s second struct. -/
def bindDateVnFields :
    List (String × Sval) → Int × Int → Option DecErr → (Int × Int) × Option DecErr
  | [], nf, e => (nf, e)
  | (k, v) :: rest, (n, f), e =>
    if k = "$date" then
      match v with
      | .obj g =>
        bindDateVnFields rest ((bindDateNInner g n e).1, f) (bindDateNInner g n e).2
      | .null => bindDateVnFields rest (n, f) e
      | _ => bindDateVnFields rest (n, f) (keepErr e .bindErr)
    else if k = "$dateFunc" then
      match v with
      | .obj g =>
        bindDateVnFields rest (n, (bindDateSInner g f e).1) (bindDateSInner g f e).2
      | .null => bindDateVnFields rest (n, f) e
      | _ => bindDateVnFields rest (n, f) (keepErr e .bindErr)
    else bindDateVnFields rest (n, f) e

/-- `jdec` into `jdecDate`'s second struct. -/
def bindDateVnStruct : Sval → (Int × Int) × Option DecErr
  | .obj fs => bindDateVnFields fs (0, 0) none
  | .null => ((0, 0), none)
  | _ => ((0, 0), some .bindErr)

/-- `jdecDate`: a string `$date` is tried against `jdateFormat` then
`"2006-01-02"`, in order, first success winning; otherwise the
`$numberLong` (or `$dateFunc` millis) form yields
`time.Unix(n/1000, n%1000*1e6).UTC()`.  The error of the first `jdec` is
discarded (`_ = jdec(...)`), exactly as in the source. -/
def jdecDate (data : Sval) : Except DecErr DVal :=
  let v := bindDateVStruct data
  let s := if v.1.1 = "" then v.1.2 else v.1.1
  if s ≠ "" then
    match parseRFC3339Millis s with
    | some t => .ok (.time t.1 t.2)
    | none =>
      match parseDateOnly s with
      | some t => .ok (.time t.1 t.2)
      | none => .error .invalidDate
  else
    match bindDateVnStruct data with
    | (_, some _) => .error .invalidDate
    | ((n0, f), none) =>
      let n := if n0 = 0 then f else n0
      timeUnixMillisUTC n |> .ok

/-! ## The lexer

Modelled from the spec (section 4.1): punctuation, double-quoted strings
with standard escapes, signed numeric literals, bare identifiers
(letters/digits/underscore/`$`); whitespace is skipped; anything else is a
syntax error.  Implemented as a state machine consuming one character per
step, so every run is structurally recursive. -/

inductive Tok where
  | lbrace
  | rbrace
  | lbrack
  | rbrack
  | colon
  | comma
  | lparen
  | rparen
  | str (s : String)
  | num (n : Int)
  | numF (raw : String)
  | ident (s : String)
deriving DecidableEq

/-- Whitespace characters. -/
def isWsCh (c : Char) : Bool := c = ' ' || c = '\t' || c = '\n' || c = '\r'

/-- Characters that may start an identifier. -/
def isIdentStart (c : Char) : Bool :=
  (65 ≤ c.toNat && c.toNat ≤ 90) || (97 ≤ c.toNat && c.toNat ≤ 122) || c = '_' || c = '$'

/-- Characters that may continue an identifier. -/
def isIdentCh (c : Char) : Bool := isIdentStart c || isDigitCh c

/-- Characters that may start a numeric literal. -/
def isNumStart (c : Char) : Bool := isDigitCh c || c = '-'

/-- Characters that may continue a numeric literal (validated at the end by
`numFinalize`). -/
def isNumCont (c : Char) : Bool :=
  isDigitCh c || c = '.' || c = 'e' || c = 'E' || c = '+' || c = '-'

/-- Punctuation tokens. -/
def punctTok (c : Char) : Option Tok :=
  if c = '\x7b' then some .lbrace
  else if c = '\x7d' then some .rbrace
  else if c = '[' then some .lbrack
  else if c = ']' then some .rbrack
  else if c = ':' then some .colon
  else if c = ',' then some .comma
  else if c = '(' then some .lparen
  else if c = ')' then some .rparen
  else none

/-- Turn an accumulated numeric literal into a token: an integer literal
becomes `num`, another valid JSON number becomes `numF`, anything else is
refused. -/
def numFinalize (acc : List Char) : Option Tok :=
  match jsonIntChars acc with
  | some n => some (.num n)
  | none => if jsonNumValid acc then some (.numF ⟨acc⟩) else none

/-- Lexer state: between tokens, or inside an identifier, number or string
(with the escape and unicode-escape sub-states). -/
inductive LexSt where
  | top
  | ident (acc : List Char)
  | num (acc : List Char)
  | str (acc : List Char)
  | strEsc (acc : List Char)
  | strU (acc : List Char) (hx : List Char)

/-- Run the lexer to the end of input, producing the token list. -/
def lexRun : LexSt → List Char → Except DecErr (List Tok)
  | .top, [] => .ok []
  | .top, c :: cs =>
    if isWsCh c then lexRun .top cs
    else if c = '"' then lexRun (.str []) cs
    else
      match punctTok c with
      | some t => (lexRun .top cs).map (fun ts => t :: ts)
      | none =>
        if isNumStart c then lexRun (.num [c]) cs
        else if isIdentStart c then lexRun (.ident [c]) cs
        else .error .synErr
  | .ident acc, [] => .ok [.ident ⟨acc⟩]
  | .ident acc, c :: cs =>
    if isIdentCh c then lexRun (.ident (acc ++ [c])) cs
    else if isWsCh c then (lexRun .top cs).map (fun ts => .ident ⟨acc⟩ :: ts)
    else if c = '"' then (lexRun (.str []) cs).map (fun ts => .ident ⟨acc⟩ :: ts)
    else
      match punctTok c with
      | some t => (lexRun .top cs).map (fun ts => .ident ⟨acc⟩ :: t :: ts)
      | none => .error .synErr
  | .num acc, [] =>
    match numFinalize acc with
    | some t => .ok [t]
    | none => .error .synErr
  | .num acc, c :: cs =>
    if isNumCont c then lexRun (.num (acc ++ [c])) cs
    else
      match numFinalize acc with
      | none => .error .synErr
      | some t =>
        if isWsCh c then (lexRun .top cs).map (fun ts => t :: ts)
        else if c = '"' then (lexRun (.str []) cs).map (fun ts => t :: ts)
        else
          match punctTok c with
          | some t2 => (lexRun .top cs).map (fun ts => t :: t2 :: ts)
          | none => .error .synErr
  | .str _, [] => .error .synErr
  | .str acc, c :: cs =>
    if c = '"' then (lexRun .top cs).map (fun ts => .str ⟨acc⟩ :: ts)
    else if c = '\\' then lexRun (.strEsc acc) cs
    else if c.toNat < 32 then .error .synErr
    else lexRun (.str (acc ++ [c])) cs
  | .strEsc _, [] => .error .synErr
  | .strEsc acc, c :: cs =>
    if c = 'u' then lexRun (.strU acc []) cs
    else
      match jsonUnquoteLoop.escCh c with
      | some e => lexRun (.str (acc ++ [e])) cs
      | none => .error .synErr
  | .strU _ _, [] => .error .synErr
  | .strU acc hx, c :: cs =>
    match hexVal c with
    | none => .error .synErr
    | some v =>
      if hx.length = 3 then
        lexRun (.str (acc ++ [Char.ofNat ((hx.foldl (fun a d => a * 16 + (hexVal d).getD 0) 0) * 16 + v)])) cs
      else lexRun (.strU acc (hx ++ [c])) cs

/-! ## The parser and extension registry

Modelled from the spec (sections 4.2-4.3): the grammar of section 4.2, with
constructor calls rewritten through the registered `DecodeFunc` entries into
their synthetic keyed-object shape, and bare identifiers resolved against
the registered constants.  The tables transcribe the `init()` registrations
of `src/extendedjson.go`.  (`DBRef` is registered in the source as well; it
is omitted here because no claim exercises it.) -/

/-- The `funcExt.DecodeFunc` table: constructor name to keyed name and
argument names. -/
def funcLookup (name : String) : Option (String × List String) :=
  if name = "BinData" then some ("$binaryFunc", ["$type", "$binary"])
  else if name = "ISODate" then some ("$dateFunc", ["S"])
  else if name = "new Date" then some ("$dateFunc", ["S"])
  else if name = "Timestamp" then some ("$timestamp", ["t", "i"])
  else if name = "ObjectId" then some ("$oidFunc", ["Id"])
  else if name = "NumberLong" then some ("$numberLongFunc", ["N"])
  else if name = "NumberInt" then some ("$numberIntFunc", ["N"])
  else if name = "NumberDecimal" then some ("$numberDecimalFunc", ["N"])
  else none

/-- The `funcExt.DecodeConst` table. -/
def constLookup (name : String) : Option Konst :=
  if name = "undefined" then some .undefined
  else if name = "MinKey" then some .minKey
  else if name = "MaxKey" then some .maxKey
  else none

mutual

/-- One value of the grammar of spec section 4.2.  `fuel` bounds the
recursion depth; the top-level entry supplies enough for any input. -/
def parseVal : Nat → List Tok → Except DecErr (Sval × List Tok)
  | 0, _ => .error .fuelErr
  | fuel + 1, ts =>
    match ts with
    | .str s :: r => .ok (.str s, r)
    | .num n :: r => .ok (.num n, r)
    | .numF w :: r => .ok (.numF w, r)
    | .lbrace :: r => (parseMembers fuel r).map (fun p => (.obj p.1, p.2))
    | .lbrack :: r => (parseElems fuel r).map (fun p => (.arr p.1, p.2))
    | .ident i :: r =>
      if i = "true" then .ok (.bool true, r)
      else if i = "false" then .ok (.bool false, r)
      else if i = "null" then .ok (.null, r)
      else
        match r with
        | .lparen :: r2 => parseCall fuel i r2
        | .ident j :: .lparen :: r2 =>
          if i = "new" then parseCall fuel ("new " ++ j) r2 else .error .synErr
        | _ =>
          match constLookup i with
          | some k => .ok (.konst k, r)
          | none => .error .synErr
    | _ => .error .synErr

/-- A constructor call after its `(`: rewrite the positional arguments into
the synthetic keyed object of the registered hook. -/
def parseCall : Nat → String → List Tok → Except DecErr (Sval × List Tok)
  | 0, _, _ => .error .fuelErr
  | fuel + 1, name, ts =>
    match funcLookup name with
    | none => .error .synErr
    | some kn =>
      match parseArgs fuel ts with
      | .error e => .error e
      | .ok (args, r) => .ok (.obj [(kn.1, .obj (kn.2.zip args))], r)

/-- Comma-separated constructor arguments up to `)`. -/
def parseArgs : Nat → List Tok → Except DecErr (List Sval × List Tok)
  | 0, _ => .error .fuelErr
  | fuel + 1, ts =>
    match ts with
    | .rparen :: r => .ok ([], r)
    | _ =>
      match parseVal fuel ts with
      | .error e => .error e
      | .ok (v, r2) =>
        match r2 with
        | .comma :: r3 => (parseArgsRest fuel r3).map (fun p => (v :: p.1, p.2))
        | .rparen :: r3 => .ok ([v], r3)
        | _ => .error .synErr

/-- Arguments after a comma (no trailing comma in calls). -/
def parseArgsRest : Nat → List Tok → Except DecErr (List Sval × List Tok)
  | 0, _ => .error .fuelErr
  | fuel + 1, ts =>
    match parseVal fuel ts with
    | .error e => .error e
    | .ok (v, r2) =>
      match r2 with
      | .comma :: r3 => (parseArgsRest fuel r3).map (fun p => (v :: p.1, p.2))
      | .rparen :: r3 => .ok ([v], r3)
      | _ => .error .synErr

/-- Object members (quoted or bare keys; a trailing comma is allowed). -/
def parseMembers : Nat → List Tok → Except DecErr (List (String × Sval) × List Tok)
  | 0, _ => .error .fuelErr
  | fuel + 1, ts =>
    match ts with
    | .rbrace :: r => .ok ([], r)
    | .str k :: .colon :: r => parseMemberTail fuel k r
    | .ident k :: .colon :: r => parseMemberTail fuel k r
    | _ => .error .synErr

/-- The value of a member and the continuation of the object. -/
def parseMemberTail : Nat → String → List Tok → Except DecErr (List (String × Sval) × List Tok)
  | 0, _, _ => .error .fuelErr
  | fuel + 1, k, ts =>
    match parseVal fuel ts with
    | .error e => .error e
    | .ok (v, r2) =>
      match r2 with
      | .comma :: r3 => (parseMembers fuel r3).map (fun p => ((k, v) :: p.1, p.2))
      | .rbrace :: r3 => .ok ([(k, v)], r3)
      | _ => .error .synErr

/-- Array elements (a trailing comma is allowed). -/
def parseElems : Nat → List Tok → Except DecErr (List Sval × List Tok)
  | 0, _ => .error .fuelErr
  | fuel + 1, ts =>
    match ts with
    | .rbrack :: r => .ok ([], r)
    | _ =>
      match parseVal fuel ts with
      | .error e => .error e
      | .ok (v, r2) =>
        match r2 with
        | .comma :: r3 => (parseElems fuel r3).map (fun p => (v :: p.1, p.2))
        | .rbrack :: r3 => .ok ([v], r3)
        | _ => .error .synErr

end

/-- The `jsonExt.DecodeKeyed` table of `init()`: the keyed hook triggered by
a first object key. -/
def keyedHook (k : String) : Option (Sval → Except DecErr DVal) :=
  if k = "$binary" || k = "$binaryFunc" then some jdecBinary
  else if k = "$date" || k = "$dateFunc" then some jdecDate
  else if k = "$timestamp" then some jdecTimestamp
  else if k = "$regex" then some jdecRegEx
  else if k = "$oid" || k = "$oidFunc" then some jdecObjectID
  else if k = "$numberLong" || k = "$numberLongFunc" then some jdecNumberLong
  else if k = "$numberInt" || k = "$numberIntFunc" then some jdecNumberInt
  else if k = "$numberDecimal" || k = "$numberDecimalFunc" then some jdecNumberDecimal
  else if k = "$minKey" then some jdecMinKey
  else if k = "$maxKey" then some jdecMaxKey
  else if k = "$undefined" then some jdecUndefined
  else none

mutual

/-- Outer decode dispatch (spec section 4.2, object dispatch rule): an
object whose first key has a keyed hook is handed whole to that hook;
everything else decodes generically. -/
def toDval : Nat → Sval → Except DecErr DVal
  | 0, _ => .error .fuelErr
  | fuel + 1, v =>
    match v with
    | .null => .ok .null
    | .bool b => .ok (.bool b)
    | .num n => .ok (.int n)
    | .numF w => .ok (.numF w)
    | .str s => .ok (.str s)
    | .konst .undefined => .ok .undefined
    | .konst .minKey => .ok .minKey
    | .konst .maxKey => .ok .maxKey
    | .arr xs => (toDvalList fuel xs).map DVal.arr
    | .obj [] => .ok (.obj [])
    | .obj ((k, v1) :: rest) =>
      match keyedHook k with
      | some hook => hook (.obj ((k, v1) :: rest))
      | none => (toDvalFields fuel ((k, v1) :: rest)).map DVal.obj

/-- Generic array elements. -/
def toDvalList : Nat → List Sval → Except DecErr (List DVal)
  | 0, _ => .error .fuelErr
  | _ + 1, [] => .ok []
  | fuel + 1, v :: vs =>
    match toDval fuel v with
    | .error e => .error e
    | .ok d => (toDvalList fuel vs).map (fun ds => d :: ds)

/-- Generic object fields, order preserved. -/
def toDvalFields : Nat → List (String × Sval) → Except DecErr (List (String × DVal))
  | 0, _ => .error .fuelErr
  | _ + 1, [] => .ok []
  | fuel + 1, (k, v) :: fs =>
    match toDval fuel v with
    | .error e => .error e
    | .ok d => (toDvalFields fuel fs).map (fun ds => (k, d) :: ds)

end

/-- Full decode of one value from a byte buffer: lex, parse one value
(whole-buffer semantics: nothing may trail it), then dispatch. -/
def decodeStr (s : String) : Except DecErr DVal :=
  match lexRun .top s.data with
  | .error e => .error e
  | .ok toks =>
    match parseVal (2 * toks.length + 2) toks with
    | .error e => .error e
    | .ok (v, []) => toDval (2 * toks.length + 2) v
    | .ok (_, _ :: _) => .error .trailingErr

/-- Binding a decoded value into an `int32` target (spec section 4.2,
target binding), as the round-trip test does for 32-bit integers. -/
def asInt32 (v : DVal) : Except DecErr Int :=
  match v with
  | .int n => if -(2 ^ 31) ≤ n && n < 2 ^ 31 then .ok n else .error .bindErr
  | .int32 n => .ok n
  | _ => .error .bindErr

/-- A character that passes through a JSON string literal untouched by the
lexer: not a quote, not a backslash, not a control character. -/
def plainCh (c : Char) : Bool := c ≠ '"' && c ≠ '\\' && 32 ≤ c.toNat

/-- All characters of a string are plain (see `plainCh`). -/
def strPlain (s : String) : Bool := s.data.all plainCh

/-! ## Lemmas: digit strings -/

theorem strData_append (a b : String) : (a ++ b).data = a.data ++ b.data := rfl

theorem digitVal_digitCh : ∀ n, n < 10 → digitVal (digitCh n) = n := by decide

theorem isDigitCh_digitCh : ∀ n, n < 10 → isDigitCh (digitCh n) = true := by decide

theorem digitCh_ne_zero : ∀ n, n < 10 → 0 < n → digitCh n ≠ '0' := by decide

theorem plainCh_digitCh : ∀ n, n < 10 → plainCh (digitCh n) = true := by decide

theorem digitsVal_append (l : List Char) (c : Char) :
    digitsVal (l ++ [c]) = 10 * digitsVal l + digitVal c := by
  simp [digitsVal]

theorem natDigits_all_digits : ∀ f n, (natDigits f n).all isDigitCh = true := by
  intro f
  induction f with
  | zero => intro n; simp [natDigits]
  | succ f ih =>
    intro n
    by_cases h : n < 10
    · simp [natDigits, h, isDigitCh_digitCh n h]
    · have h10 : n % 10 < 10 := Nat.mod_lt _ (by omega)
      simp [natDigits, h, ih (n / 10), isDigitCh_digitCh _ h10]

theorem natDigits_ne_nil : ∀ f n, n < f → natDigits f n ≠ [] := by
  intro f
  induction f with
  | zero => intro n h; omega
  | succ f ih =>
    intro n _
    by_cases h : n < 10
    · simp [natDigits, h]
    · simp only [natDigits, if_neg h]
      intro hc
      exact (List.append_ne_nil_of_right_ne_nil _ (by simp)) hc

theorem digitsVal_natDigits : ∀ f n, n < f → digitsVal (natDigits f n) = n := by
  intro f
  induction f with
  | zero => intro n h; omega
  | succ f ih =>
    intro n hn
    by_cases h : n < 10
    · simp [natDigits, h, digitsVal, digitVal_digitCh n h]
    · have h10 : n % 10 < 10 := Nat.mod_lt _ (by omega)
      have hdiv : n / 10 < f := by omega
      simp only [natDigits, if_neg h, digitsVal_append, ih _ hdiv, digitVal_digitCh _ h10]
      omega

theorem natDigits_head_ne_zero :
    ∀ f n, 0 < n → n < f → (natDigits f n).head? ≠ some '0' := by
  intro f
  induction f with
  | zero => intro n h1 h2; omega
  | succ f ih =>
    intro n hpos hn
    by_cases h : n < 10
    · simp only [natDigits, if_pos h, List.head?]
      intro hc
      exact digitCh_ne_zero n h hpos (by injection hc)
    · have hdivpos : 0 < n / 10 := Nat.div_pos (by omega) (by omega)
      have hdiv : n / 10 < f := by omega
      have hne := natDigits_ne_nil f (n / 10) hdiv
      simp only [natDigits, if_neg h]
      rw [List.head?_append_of_ne_nil _ hne]
      exact ih _ hdivpos hdiv

theorem jsonIntCore_natDigits (n : Nat) : jsonIntCore (natDigits (n + 1) n) = some n := by
  have hall := natDigits_all_digits (n + 1) n
  have hne := natDigits_ne_nil (n + 1) n (by omega)
  have hval := digitsVal_natDigits (n + 1) n (by omega)
  have hhead : ¬(2 ≤ (natDigits (n + 1) n).length ∧ (natDigits (n + 1) n).head? = some '0') := by
    rintro ⟨hlen, hzero⟩
    by_cases hp : 0 < n
    · exact natDigits_head_ne_zero (n + 1) n hp (by omega) hzero
    · have hn0 : n = 0 := by omega
      subst hn0
      simp [natDigits] at hlen
  rw [jsonIntCore, if_neg hne, if_neg (by simp [hall]), if_neg hhead, hval]

theorem natDigits_head_digit (n : Nat) :
    ∃ c ds, natDigits (n + 1) n = c :: ds ∧ isDigitCh c = true := by
  cases hd : natDigits (n + 1) n with
  | nil => exact absurd hd (natDigits_ne_nil (n + 1) n (by omega))
  | cons c ds =>
    refine ⟨c, ds, rfl, ?_⟩
    have := natDigits_all_digits (n + 1) n
    rw [hd, List.all_cons, Bool.and_eq_true] at this
    exact this.1

theorem jsonIntChars_intStr (n : Int) : jsonIntChars (intStr n).data = some n := by
  by_cases hneg : n < 0
  · have hdata : (intStr n).data = '-' :: natDigits ((-n).toNat + 1) (-n).toNat := by
      rw [intStr, if_pos hneg]
      rfl
    rw [hdata, jsonIntChars, if_pos rfl, jsonIntCore_natDigits]
    simp
    omega
  · have hdata : (intStr n).data = natDigits (n.toNat + 1) n.toNat := by
      rw [intStr, if_neg hneg]
      rfl
    obtain ⟨c, ds, hd, hdig⟩ := natDigits_head_digit n.toNat
    have hcm : c ≠ '-' := by
      intro hc
      subst hc
      simp [isDigitCh] at hdig
    rw [hdata, hd, jsonIntChars, if_neg hcm, ← hd, jsonIntCore_natDigits]
    simp
    omega

/-! ## Lemmas: hex -/

theorem hexVal_hexCh : ∀ n, n < 16 → hexVal (hexCh n) = some n := by decide

theorem plainCh_hexCh : ∀ n, n < 16 → plainCh (hexCh n) = true := by decide

theorem hexDecode_hexEncode :
    ∀ bs : List Nat, (∀ b ∈ bs, b < 256) → hexDecodeChars (hexEncodeChars bs) = some bs := by
  intro bs
  induction bs with
  | nil => intro _; rfl
  | cons b rest ih =>
    intro hb
    have hblt : b < 256 := hb b (by simp)
    have h1 : b / 16 < 16 := by omega
    have h2 : b % 16 < 16 := by omega
    have hbb : 16 * (b / 16) + b % 16 = b := by omega
    simp only [hexEncodeChars, hexDecodeChars, hexVal_hexCh _ h1, hexVal_hexCh _ h2,
      ih (fun x hx => hb x (by simp [hx])), hbb]
    rfl

theorem hexEncodeChars_length (bs : List Nat) : (hexEncodeChars bs).length = 2 * bs.length := by
  induction bs with
  | nil => rfl
  | cons b rest ih => simp [hexEncodeChars, ih]; omega

theorem hexEncodeChars_plain (bs : List Nat) (hb : ∀ b ∈ bs, b < 256) :
    (hexEncodeChars bs).all plainCh = true := by
  induction bs with
  | nil => rfl
  | cons b rest ih =>
    have hblt : b < 256 := hb b (by simp)
    simp [hexEncodeChars, plainCh_hexCh (b / 16) (by omega), plainCh_hexCh (b % 16) (by omega),
      ih (fun x hx => hb x (by simp [hx]))]

theorem objectIDFromHex_hexEncode (bs : List Nat) (hlen : bs.length = 12)
    (hb : ∀ b ∈ bs, b < 256) : objectIDFromHex (hexEncode bs) = some bs := by
  have hl : (hexEncode bs).length = 24 := by
    show (hexEncodeChars bs).length = 24
    rw [hexEncodeChars_length, hlen]
  rw [objectIDFromHex, if_pos hl]
  exact hexDecode_hexEncode bs hb

/-! ## Lemmas: base64 -/

theorem b64Val_b64Ch : ∀ n, n < 64 → b64Val (b64Ch n) = some n := by decide

theorem b64Ch_ne_pad : ∀ n, n < 64 → b64Ch n ≠ '=' := by decide

theorem plainCh_b64Ch : ∀ n, n < 64 → plainCh (b64Ch n) = true := by decide

theorem b64Decode_b64Encode :
    ∀ bs : List Nat, (∀ b ∈ bs, b < 256) → b64DecodeChars (b64EncodeChars bs) = some bs := by
  intro bs
  induction bs using b64EncodeChars.induct with
  | case1 => intro _; rfl
  | case2 a =>
    intro hb
    have ha : a < 256 := hb a (by simp)
    have e1 : a / 4 * 4 + a % 4 * 16 / 16 = a := by omega
    simp only [b64EncodeChars, b64DecodeChars, b64Val_b64Ch (a / 4) (by omega),
      b64Val_b64Ch (a % 4 * 16) (by omega), if_pos rfl, List.isEmpty_nil, Bool.and_true, e1]
    rfl
  | case3 a b =>
    intro hb
    have ha : a < 256 := hb a (by simp)
    have hbb : b < 256 := hb b (by simp)
    have e1 : a / 4 * 4 + (a % 4 * 16 + b / 16) / 16 = a := by omega
    have e2 : (a % 4 * 16 + b / 16) % 16 * 16 + b % 16 * 4 / 4 = b := by omega
    simp only [b64EncodeChars, b64DecodeChars, b64Val_b64Ch (a / 4) (by omega),
      b64Val_b64Ch (a % 4 * 16 + b / 16) (by omega), b64Val_b64Ch (b % 16 * 4) (by omega),
      if_neg (b64Ch_ne_pad (b % 16 * 4) (by omega)), if_pos rfl, List.isEmpty_nil, e1, e2]
    rfl
  | case4 a b c rest ih =>
    intro hb
    have ha : a < 256 := hb a (by simp)
    have hbb : b < 256 := hb b (by simp)
    have hc : c < 256 := hb c (by simp)
    have e1 : a / 4 * 4 + (a % 4 * 16 + b / 16) / 16 = a := by omega
    have e2 : (a % 4 * 16 + b / 16) % 16 * 16 + (b % 16 * 4 + c / 64) / 4 = b := by omega
    have e3 : (b % 16 * 4 + c / 64) % 4 * 64 + c % 64 = c := by omega
    have hrest := ih (fun x hx => hb x (by simp [hx]))
    simp only [b64EncodeChars, b64DecodeChars, b64Val_b64Ch (a / 4) (by omega),
      b64Val_b64Ch (a % 4 * 16 + b / 16) (by omega),
      b64Val_b64Ch (b % 16 * 4 + c / 64) (by omega), b64Val_b64Ch (c % 64) (by omega),
      if_neg (b64Ch_ne_pad (b % 16 * 4 + c / 64) (by omega)),
      if_neg (b64Ch_ne_pad (c % 64) (by omega)), hrest, e1, e2, e3]
    rfl

theorem b64EncodeChars_plain (bs : List Nat) (hb : ∀ b ∈ bs, b < 256) :
    (b64EncodeChars bs).all plainCh = true := by
  induction bs using b64EncodeChars.induct with
  | case1 => rfl
  | case2 a =>
    have ha : a < 256 := hb a (by simp)
    simp [b64EncodeChars, plainCh_b64Ch (a / 4) (by omega), plainCh_b64Ch (a % 4 * 16) (by omega)]
    decide
  | case3 a b =>
    have ha : a < 256 := hb a (by simp)
    have hbb : b < 256 := hb b (by simp)
    simp [b64EncodeChars, plainCh_b64Ch (a / 4) (by omega),
      plainCh_b64Ch (a % 4 * 16 + b / 16) (by omega), plainCh_b64Ch (b % 16 * 4) (by omega)]
    decide
  | case4 a b c rest ih =>
    have ha : a < 256 := hb a (by simp)
    have hbb : b < 256 := hb b (by simp)
    have hc : c < 256 := hb c (by simp)
    simp [b64EncodeChars, plainCh_b64Ch (a / 4) (by omega),
      plainCh_b64Ch (a % 4 * 16 + b / 16) (by omega),
      plainCh_b64Ch (b % 16 * 4 + c / 64) (by omega), plainCh_b64Ch (c % 64) (by omega),
      ih (fun x hx => hb x (by simp [hx]))]

/-! ## Lemmas: lexer runs over symbolic content -/

theorem plainCh_spec {c : Char} (h : plainCh c = true) :
    c ≠ '"' ∧ c ≠ '\\' ∧ ¬(c.toNat < 32) := by
  simp only [plainCh, Bool.and_eq_true, decide_eq_true_eq, ne_eq] at h
  exact ⟨h.1.1, h.1.2, by omega⟩

theorem lexRun_str_run (content : List Char) :
    ∀ acc rest, content.all plainCh = true →
      lexRun (.str acc) (content ++ rest) = lexRun (.str (acc ++ content)) rest := by
  induction content with
  | nil => intro acc rest _; simp
  | cons c cs ih =>
    intro acc rest hall
    rw [List.all_cons, Bool.and_eq_true] at hall
    obtain ⟨h1, h2, h3⟩ := plainCh_spec hall.1
    show lexRun (.str acc) (c :: (cs ++ rest)) = _
    simp only [lexRun, if_neg h1, if_neg h2, if_neg h3]
    rw [ih (acc ++ [c]) rest hall.2]
    simp

theorem char_ne_of_toNat_ne {c d : Char} (h : c.toNat ≠ d.toNat) : c ≠ d :=
  fun he => h (by rw [he])

theorem isDigitCh_toNat {c : Char} (h : isDigitCh c = true) :
    48 ≤ c.toNat ∧ c.toNat ≤ 57 := by
  simpa [isDigitCh, Bool.and_eq_true, decide_eq_true_eq] using h

/-- A character whose code is in the digit range differs from any
character outside it. -/
theorem digit_ne_char {c : Char} (h1 : 48 ≤ c.toNat) (h2 : c.toNat ≤ 57) (d : Char)
    (hd : d.toNat < 48 ∨ 57 < d.toNat) : c ≠ d :=
  char_ne_of_toNat_ne (by omega)

/-- A decimal digit starts a number token from the top lexer state. -/
theorem digit_top_facts {c : Char} (h : isDigitCh c = true) :
    isWsCh c = false ∧ c ≠ '"' ∧ punctTok c = none ∧ isNumStart c = true := by
  obtain ⟨h1, h2⟩ := isDigitCh_toNat h
  refine ⟨?_, ?_, ?_, ?_⟩
  · simp only [isWsCh, Bool.or_eq_false_iff, decide_eq_false_iff_not]
    refine ⟨⟨⟨?_, ?_⟩, ?_⟩, ?_⟩ <;> exact digit_ne_char h1 h2 _ (by decide)
  · exact digit_ne_char h1 h2 _ (by decide)
  · unfold punctTok
    rw [if_neg, if_neg, if_neg, if_neg, if_neg, if_neg, if_neg, if_neg] <;>
      exact digit_ne_char h1 h2 _ (by decide)
  · simp [isNumStart, h]

/-- A digit continues a number token. -/
theorem digit_numCont {c : Char} (h : isDigitCh c = true) : isNumCont c = true := by
  simp [isNumCont, h]

theorem lexRun_num_run (ds : List Char) :
    ∀ acc rest, ds.all isNumCont = true →
      lexRun (.num acc) (ds ++ rest) = lexRun (.num (acc ++ ds)) rest := by
  induction ds with
  | nil => intro acc rest _; simp
  | cons c cs ih =>
    intro acc rest hall
    rw [List.all_cons, Bool.and_eq_true] at hall
    show lexRun (.num acc) (c :: (cs ++ rest)) = _
    simp only [lexRun, if_pos hall.1]
    rw [ih (acc ++ [c]) rest hall.2]
    simp

theorem all_numCont_of_digits {ds : List Char} (h : ds.all isDigitCh = true) :
    ds.all isNumCont = true := by
  rw [List.all_eq_true] at h ⊢
  exact fun c hc => digit_numCont (h c hc)

/-- Lexing an integer literal from the top state runs into the number
state holding exactly its characters. -/
theorem lexRun_top_intStr (n : Int) (rest : List Char) :
    lexRun .top ((intStr n).data ++ rest) = lexRun (.num (intStr n).data) rest := by
  by_cases hneg : n < 0
  · have hdata : (intStr n).data = '-' :: natDigits ((-n).toNat + 1) (-n).toNat := by
      rw [intStr, if_pos hneg]; rfl
    rw [hdata]
    show lexRun (.num ['-']) (natDigits ((-n).toNat + 1) (-n).toNat ++ rest) = _
    rw [lexRun_num_run _ _ _ (all_numCont_of_digits (natDigits_all_digits _ _))]
    rfl
  · have hdata : (intStr n).data = natDigits (n.toNat + 1) n.toNat := by
      rw [intStr, if_neg hneg]; rfl
    obtain ⟨c, ds, hd, hdig⟩ := natDigits_head_digit n.toNat
    obtain ⟨hw, hq, hp, hns⟩ := digit_top_facts hdig
    have hcs : ds.all isNumCont = true := by
      have := natDigits_all_digits (n.toNat + 1) n.toNat
      rw [hd, List.all_cons, Bool.and_eq_true] at this
      exact all_numCont_of_digits this.2
    rw [hdata, hd]
    show lexRun .top (c :: (ds ++ rest)) = _
    simp only [lexRun, hw, Bool.false_eq_true, if_false, if_neg hq, hp, hns, if_true]
    rw [lexRun_num_run _ _ _ hcs]
    simp

/-- Lexing a natural literal (used by `Timestamp(t,i)`) similarly. -/
theorem lexRun_top_natStr (n : Nat) (rest : List Char) :
    lexRun .top ((natStr n).data ++ rest) = lexRun (.num (natStr n).data) rest := by
  have h : (intStr (n : Int)).data = (natStr n).data := by
    rw [intStr, if_neg (by omega)]
    simp
  rw [← h, lexRun_top_intStr]

/-- Finalizing the number state on the characters of an integer literal
yields its token. -/
theorem numFinalize_intStr (n : Int) : numFinalize (intStr n).data = some (.num n) := by
  rw [numFinalize, jsonIntChars_intStr]

theorem numFinalize_natStr (n : Nat) : numFinalize (natStr n).data = some (.num (n : Int)) := by
  have h : (intStr (n : Int)).data = (natStr n).data := by
    rw [intStr, if_neg (by omega)]
    simp
  rw [← h, numFinalize_intStr]

/-- Ending a number token at a punctuation character. -/
theorem lexNumThen (acc : List Char) (n : Int) (c : Char) (t2 : Tok) (rest : List Char)
    (hf : numFinalize acc = some (.num n)) (h1 : isNumCont c = false)
    (h2 : isWsCh c = false) (h3 : c ≠ '"') (h4 : punctTok c = some t2) :
    lexRun (.num acc) (c :: rest) = (lexRun .top rest).map (fun ts => .num n :: t2 :: ts) := by
  simp only [lexRun, h1, Bool.false_eq_true, if_false, hf, h2, if_neg h3, h4]

/-- Ending a number token at the end of input. -/
theorem lexNumEnd (acc : List Char) (n : Int) (hf : numFinalize acc = some (.num n)) :
    lexRun (.num acc) [] = .ok [.num n] := by
  simp only [lexRun, hf]

/-- A quoted string literal of plain characters produces one string
token. -/
theorem lexQuoted (content : List Char) (rest : List Char) (h : content.all plainCh = true) :
    lexRun (.str []) (content ++ ('"' :: rest)) =
      (lexRun .top rest).map (fun ts => .str ⟨content⟩ :: ts) := by
  rw [lexRun_str_run content [] ('"' :: rest) h]
  rfl

/-- Lexing the extended object-id encoding. -/
theorem lexOid (id : List Nat) (hb : ∀ b ∈ id, b < 256) :
    lexRun .top (jencExtendedObjectID id).data =
      .ok [.ident "ObjectId", .lparen, .str (hexEncode id), .rparen] := by
  have hd : (jencExtendedObjectID id).data =
      "ObjectId(\"".data ++ (hexEncodeChars id ++ ('"' :: [')'])) := by
    show ("ObjectId(\"" ++ hexEncode id ++ "\")").data = _
    rw [strData_append, strData_append, List.append_assoc]
    rfl
  rw [hd]
  have step1 : ∀ X, lexRun .top ("ObjectId(\"".data ++ X) =
      (lexRun (.str []) X).map (fun ts => .ident "ObjectId" :: .lparen :: ts) := fun _ => rfl
  rw [step1, lexQuoted _ _ (hexEncodeChars_plain id hb)]
  rfl

/-- Lexing the extended timestamp encoding. -/
theorem lexTimestamp (t i : Nat) :
    lexRun .top (jencExtendedTimestamp t i).data =
      .ok [.ident "Timestamp", .lparen, .num (t : Int), .comma, .num (i : Int), .rparen] := by
  have hd : (jencExtendedTimestamp t i).data =
      "Timestamp(".data ++ ((natStr t).data ++ (',' :: ((natStr i).data ++ [')']))) := by
    show ("Timestamp(" ++ natStr t ++ "," ++ natStr i ++ ")").data = _
    rw [strData_append, strData_append, strData_append, strData_append]
    simp [List.append_assoc]
  rw [hd]
  have step1 : ∀ X, lexRun .top ("Timestamp(".data ++ X) =
      (lexRun .top X).map (fun ts => .ident "Timestamp" :: .lparen :: ts) := fun _ => rfl
  rw [step1, lexRun_top_natStr,
    lexNumThen _ _ ',' .comma _ (numFinalize_natStr t) (by decide) (by decide) (by decide) rfl,
    lexRun_top_natStr,
    lexNumThen _ _ ')' .rparen _ (numFinalize_natStr i) (by decide) (by decide) (by decide) rfl]
  rfl

/-- Lexing the extended `NumberLong` encoding. -/
theorem lexNumberLong (n : Int) :
    lexRun .top (jencExtendedNumberLong n).data =
      .ok [.ident "NumberLong", .lparen, .num n, .rparen] := by
  have hd : (jencExtendedNumberLong n).data =
      "NumberLong(".data ++ ((intStr n).data ++ [')']) := by
    show ("NumberLong(" ++ intStr n ++ ")").data = _
    rw [strData_append, strData_append, List.append_assoc]
  rw [hd]
  have step1 : ∀ X, lexRun .top ("NumberLong(".data ++ X) =
      (lexRun .top X).map (fun ts => .ident "NumberLong" :: .lparen :: ts) := fun _ => rfl
  rw [step1, lexRun_top_intStr,
    lexNumThen _ _ ')' .rparen _ (numFinalize_intStr n) (by decide) (by decide) (by decide) rfl]
  rfl

/-- Lexing a bare integer literal (the extended 32-bit integer encoding). -/
theorem lexBareInt (n : Int) :
    lexRun .top (jencExtendedNumberInt n).data = .ok [.num n] := by
  show lexRun .top (intStr n).data = _
  rw [← List.append_nil (intStr n).data, lexRun_top_intStr,
    lexNumEnd _ _ (numFinalize_intStr n)]

/-- For a single-digit subtype, `%x` and `%d` renderings coincide. -/
theorem goHexStr_digit : ∀ s, s < 10 → (goHexStr s).data = (natStr s).data := by decide

/-- Lexing the extended binary encoding for a single-digit subtype. -/
theorem lexBinData (s : Nat) (hs : s < 10) (data : List Nat) (hb : ∀ b ∈ data, b < 256) :
    lexRun .top (jencExtendedBinaryType s data).data =
      .ok [.ident "BinData", .lparen, .num (s : Int), .comma, .str (b64Encode data), .rparen] := by
  have hd : (jencExtendedBinaryType s data).data =
      "BinData(".data ++ ((natStr s).data ++ (',' :: ('"' :: (b64EncodeChars data ++ ('"' :: [')']))))) := by
    show ("BinData(" ++ goHexStr s ++ ",\"" ++ b64Encode data ++ "\")").data = _
    rw [strData_append, strData_append, strData_append, strData_append, goHexStr_digit s hs]
    simp [List.append_assoc]
    rfl
  rw [hd]
  have step1 : ∀ X, lexRun .top ("BinData(".data ++ X) =
      (lexRun .top X).map (fun ts => .ident "BinData" :: .lparen :: ts) := fun _ => rfl
  rw [step1, lexRun_top_natStr,
    lexNumThen _ _ ',' .comma _ (numFinalize_natStr s) (by decide) (by decide) (by decide) rfl]
  have step2 : ∀ X, lexRun .top ('"' :: X) = lexRun (.str []) X := fun _ => rfl
  rw [step2, lexQuoted _ _ (b64EncodeChars_plain data hb)]
  rfl

/-- Lexing the extended decimal128 encoding. -/
theorem lexNumberDecimal (d : Decimal128) (h : strPlain d.repr = true) :
    lexRun .top (jencExtendedNumberDecimal d).data =
      .ok [.ident "NumberDecimal", .lparen, .str d.repr, .rparen] := by
  have hd : (jencExtendedNumberDecimal d).data =
      "NumberDecimal(\"".data ++ (d.repr.data ++ ('"' :: [')'])) := by
    show ("NumberDecimal(\"" ++ d.repr ++ "\")").data = _
    rw [strData_append, strData_append, List.append_assoc]
  rw [hd]
  have step1 : ∀ X, lexRun .top ("NumberDecimal(\"".data ++ X) =
      (lexRun (.str []) X).map (fun ts => .ident "NumberDecimal" :: .lparen :: ts) :=
    fun _ => rfl
  rw [step1, lexQuoted _ _ h]
  rfl

/-- Lexing the regex encoding (shared by both modes). -/
theorem lexRegex (p o : String) (hp : strPlain p = true) (ho : strPlain o = true) :
    lexRun .top (jencRegEx p o).data =
      .ok [.lbrace, .str "$regex", .colon, .str p, .comma,
        .str "$options", .colon, .str o, .rbrace] := by
  have hd : (jencRegEx p o).data =
      "\x7b\"$regex\":\"".data ++
        (p.data ++ ('"' :: (",\"$options\":\"".data ++ (o.data ++ ('"' :: ['\x7d']))))) := by
    show ("\x7b\"$regex\":\"" ++ p ++ "\",\"$options\":\"" ++ o ++ "\"\x7d").data = _
    rw [strData_append, strData_append, strData_append, strData_append]
    simp [List.append_assoc]
  rw [hd]
  have step1 : ∀ X, lexRun .top ("\x7b\"$regex\":\"".data ++ X) =
      (((lexRun (.str []) X).map (fun ts => Tok.colon :: ts)).map
        (fun ts => Tok.str "$regex" :: ts)).map (fun ts => Tok.lbrace :: ts) :=
    fun _ => rfl
  rw [step1, lexQuoted _ _ hp]
  have step2 : ∀ Y, lexRun .top (",\"$options\":\"".data ++ Y) =
      (((lexRun (.str []) Y).map (fun ts => Tok.colon :: ts)).map
        (fun ts => Tok.str "$options" :: ts)).map (fun ts => Tok.comma :: ts) :=
    fun _ => rfl
  rw [step2, lexQuoted _ _ ho]
  rfl

/-! ## Lemmas: hook evaluation on the shapes the parser produces -/

/-- A string without special characters is not a doubly-quoted payload, so
a `,string`-tagged `string` field refuses it. -/
theorem jsonUnquote_of_plain (s : String) (h : strPlain s = true) : jsonUnquote s = none := by
  rw [jsonUnquote]
  cases hd : s.data with
  | nil => rfl
  | cons c rest =>
    have hc : plainCh c = true := by
      have := h
      rw [strPlain, hd, List.all_cons, Bool.and_eq_true] at this
      exact this.1
    show (if c = '"' then jsonUnquoteLoop [] rest else none) = none
    rw [if_neg (plainCh_spec hc).1]

theorem bindI64_num (n : Int) (h1 : -(2 ^ 63) ≤ n) (h2 : n < 2 ^ 63) :
    bindI64 (.num n) = some n := by
  rw [bindI64, if_pos]
  simpa using ⟨h1, h2⟩

theorem bindI32_num (n : Int) (h1 : -(2 ^ 31) ≤ n) (h2 : n < 2 ^ 31) :
    bindI32 (.num n) = some n := by
  rw [bindI32, if_pos]
  simpa using ⟨h1, h2⟩

/-- Binder evaluation for the rewritten `Timestamp(t,i)` object. -/
theorem bindTsStruct_eval (vt vi : Sval) (t i : Int) (hbt : bindI32 vt = some t)
    (hbi : bindI32 vi = some i) :
    bindTsStruct (.obj [("$timestamp", .obj [("t", vt), ("i", vi)])]) = ((t, i), none) := by
  simp only [bindTsStruct, bindTsFields, bindTsInner, hbt, hbi]
  simp

/-- Evaluating `jdecTimestamp` on the rewritten `Timestamp(t,i)` object. -/
theorem jdecTimestamp_eval (t i : Nat) (ht : t < 2 ^ 31) (hi : i < 2 ^ 31) :
    jdecTimestamp (.obj [("$timestamp", .obj [("t", .num (t : Int)), ("i", .num (i : Int))])]) =
      .ok (.timestamp t i) := by
  rw [jdecTimestamp, bindTsStruct_eval _ _ _ _ (bindI32_num _ (by omega) (by omega))
    (bindI32_num _ (by omega) (by omega))]
  have hmt : ((t : Int) % 4294967296).toNat = t := by omega
  have hmi : ((i : Int) % 4294967296).toNat = i := by omega
  simp [hmt, hmi]

/-- Binder evaluation for the rewritten `BinData(s,"...")` object. -/
theorem bindBinStruct_eval (vt vb : Sval) (s : Int) (data : List Nat)
    (hbs : bindI64 vt = some s) (hbb : bindBytes vb = some (some data)) :
    bindBinStruct (.obj [("$binaryFunc", .obj [("$type", vt), ("$binary", vb)])]) =
      ((none, "", some data, s), none) := by
  simp only [bindBinStruct, bindBinFields, bindBinInner, hbs, hbb]
  simp

theorem bindBytes_b64 (data : List Nat) (hb : ∀ b ∈ data, b < 256) :
    bindBytes (.str (b64Encode data)) = some (some data) := by
  show (b64DecodeChars (b64Encode data).data).map some = _
  rw [show (b64Encode data).data = b64EncodeChars data from rfl, b64Decode_b64Encode data hb]
  rfl

/-- Evaluating `jdecBinary` on the rewritten `BinData(s,"...")` object for a
nonzero in-range subtype. -/
theorem jdecBinary_func_eval (s : Nat) (hs1 : 1 ≤ s) (hs255 : s ≤ 255) (data : List Nat)
    (hb : ∀ b ∈ data, b < 256) :
    jdecBinary (.obj [("$binaryFunc",
        .obj [("$type", .num (s : Int)), ("$binary", .str (b64Encode data))])]) =
      .ok (.binary s data) := by
  rw [jdecBinary, bindBinStruct_eval _ _ _ _ (bindI64_num _ (by omega) (by omega))
    (bindBytes_b64 data hb)]
  have hs0 : ¬((s : Int) = 0) := by omega
  have hneg : ¬((s : Int) < 0 || (s : Int) > 255) := by
    simp only [Bool.or_eq_true, decide_eq_true_eq, not_or]
    omega
  have htn : ((s : Int)).toNat = s := by omega
  simp only [finishBinary, if_neg hs0, htn]
  simp only [Option.getD]
  rw [if_pos (by simp), if_neg hneg]

/-- Evaluating `jdecNumberLong` on the rewritten `NumberLong(n)` object. -/
theorem jdecNumberLong_func_eval (n : Int) (h1 : -(2 ^ 63) ≤ n) (h2 : n < 2 ^ 63) :
    jdecNumberLong (.obj [("$numberLongFunc", .obj [("N", .num n)])]) = .ok (.int64 n) := by
  have hk : ¬(("$numberLongFunc" : String) = "$numberLong") := by decide
  have hstr : bindNumStruct "$numberLong" bindI64Str
      (.obj [("$numberLongFunc", .obj [("N", .num n)])]) = ((0, 0), some .bindErr) := by
    simp only [bindNumStruct, bindNumFields, bindNumInner, bindI64Str, keepErr, if_neg hk]
    simp
  have hnum : bindNumStruct "$numberLong" bindI64
      (.obj [("$numberLongFunc", .obj [("N", .num n)])]) = ((0, n), none) := by
    simp only [bindNumStruct, bindNumFields, bindNumInner, bindI64_num n h1 h2, keepErr,
      if_neg hk]
    simp
  rw [jdecNumberLong, hstr, hnum]
  simp

/-- Evaluating `jdecNumberDecimal` on the rewritten `NumberDecimal("...")`
object for a valid plain decimal string. -/
theorem jdecNumberDecimal_func_eval (d : Decimal128) (hv : validDecStr d.repr = true)
    (hp : strPlain d.repr = true) :
    jdecNumberDecimal (.obj [("$numberDecimalFunc", .obj [("N", .str d.repr)])]) =
      .ok (.dec128 d) := by
  have hk : ¬(("$numberDecimalFunc" : String) = "$numberDecimal") := by decide
  have hq : bindStrQ (.str d.repr) = none := jsonUnquote_of_plain d.repr hp
  have hstr : bindDecStruct bindStrQ (.obj [("$numberDecimalFunc", .obj [("N", .str d.repr)])]) =
      (("", ""), some .bindErr) := by
    simp only [bindDecStruct, bindDecFields, bindDecInner, hq, keepErr, if_neg hk]
    simp
  have hplain : bindDecStruct bindStr (.obj [("$numberDecimalFunc", .obj [("N", .str d.repr)])]) =
      (("", d.repr), none) := by
    simp only [bindDecStruct, bindDecFields, bindDecInner, bindStr, keepErr, if_neg hk]
    simp
  have hpd : parseDecimal128 d.repr = some d := by
    rw [parseDecimal128, if_pos hv]
  have hempty : parseDecimal128 "" = none := rfl
  rw [jdecNumberDecimal, hstr, hplain]
  simp only [finishDecimal, hempty, hpd]

/-! ## Lemmas: full extended-mode round trips per type -/

theorem decodeOidExt (id : List Nat) (hlen : id.length = 12) (hb : ∀ b ∈ id, b < 256) :
    decodeStr (jencExtendedObjectID id) = .ok (.oid id) := by
  have key : decodeStr (jencExtendedObjectID id) =
      (match objectIDFromHex (hexEncode id) with
       | some bs => .ok (.oid bs)
       | none => .error .invalidOid) := by
    rw [decodeStr, lexOid id hb]
    rfl
  rw [key, objectIDFromHex_hexEncode id hlen hb]

theorem decodeTimestampExt (t i : Nat) (ht : t < 2 ^ 31) (hi : i < 2 ^ 31) :
    decodeStr (jencExtendedTimestamp t i) = .ok (.timestamp t i) := by
  have key : decodeStr (jencExtendedTimestamp t i) =
      jdecTimestamp (.obj [("$timestamp",
        .obj [("t", .num (t : Int)), ("i", .num (i : Int))])]) := by
    rw [decodeStr, lexTimestamp t i]
    rfl
  rw [key, jdecTimestamp_eval t i ht hi]

theorem decodeBinaryExt (s : Nat) (hs1 : 1 ≤ s) (hs9 : s ≤ 9) (data : List Nat)
    (hb : ∀ b ∈ data, b < 256) :
    decodeStr (jencExtendedBinaryType s data) = .ok (.binary s data) := by
  have key : decodeStr (jencExtendedBinaryType s data) =
      jdecBinary (.obj [("$binaryFunc",
        .obj [("$type", .num (s : Int)), ("$binary", .str (b64Encode data))])]) := by
    rw [decodeStr, lexBinData s (by omega) data hb]
    rfl
  rw [key, jdecBinary_func_eval s hs1 (by omega) data hb]

theorem decodeRegexExt (p o : String) (hp : strPlain p = true) (ho : strPlain o = true) :
    decodeStr (jencRegEx p o) = .ok (.regex p o) := by
  rw [decodeStr, lexRegex p o hp ho]
  rfl

theorem decodeDecimalExt (d : Decimal128) (hv : validDecStr d.repr = true)
    (hp : strPlain d.repr = true) :
    decodeStr (jencExtendedNumberDecimal d) = .ok (.dec128 d) := by
  have key : decodeStr (jencExtendedNumberDecimal d) =
      jdecNumberDecimal (.obj [("$numberDecimalFunc", .obj [("N", .str d.repr)])]) := by
    rw [decodeStr, lexNumberDecimal d hp]
    rfl
  rw [key, jdecNumberDecimal_func_eval d hv hp]

theorem decodeNumberLongExt (n : Int) (h1 : -(2 ^ 63) ≤ n) (h2 : n < 2 ^ 63) :
    decodeStr (jencExtendedNumberLong n) = .ok (.int64 n) := by
  have key : decodeStr (jencExtendedNumberLong n) =
      jdecNumberLong (.obj [("$numberLongFunc", .obj [("N", .num n)])]) := by
    rw [decodeStr, lexNumberLong n]
    rfl
  rw [key, jdecNumberLong_func_eval n h1 h2]

theorem decodeNumberIntExt (n : Int) (h1 : -(2 ^ 31) ≤ n) (h2 : n < 2 ^ 31) :
    (decodeStr (jencExtendedNumberInt n)).bind asInt32 = .ok n := by
  have key : decodeStr (jencExtendedNumberInt n) = .ok (.int n) := by
    rw [decodeStr, lexBareInt n]
    rfl
  rw [key]
  show asInt32 (.int n) = .ok n
  rw [asInt32, if_pos]
  simpa using ⟨h1, h2⟩

theorem decodeUndefinedExt : decodeStr jencExtendedUndefined = .ok .undefined := rfl

/-! ## Lemmas: auxiliary facts for the claim theorems -/

theorem strExt {a b : String} (h : a.data = b.data) : a = b := congrArg String.mk h

/-- The first character of a rendered integer is a minus sign or a digit. -/
theorem intStr_head (n : Int) :
    ∃ c ds, (intStr n).data = c :: ds ∧ (c.toNat = 45 ∨ (48 ≤ c.toNat ∧ c.toNat ≤ 57)) := by
  by_cases hneg : n < 0
  · refine ⟨'-', natDigits ((-n).toNat + 1) (-n).toNat, ?_, Or.inl rfl⟩
    rw [intStr, if_pos hneg]
    rfl
  · obtain ⟨c, ds, hd, hdig⟩ := natDigits_head_digit n.toNat
    refine ⟨c, ds, ?_, Or.inr (isDigitCh_toNat hdig)⟩
    rw [intStr, if_neg hneg]
    exact hd

/-- A value rendered unquoted differs from the same value quoted inside
the wrapper (the character after the colon differs). -/
theorem unquoted_ne_quoted (pre suf : String) (n : Int) :
    ¬(pre ++ intStr n ++ suf = pre ++ "\"" ++ intStr n ++ "\"" ++ suf) := by
  intro h
  have hdata := congrArg String.data h
  simp only [strData_append, List.append_assoc] at hdata
  have h2 := List.append_cancel_left hdata
  obtain ⟨c, ds, hd, hc⟩ := intStr_head n
  rw [hd] at h2
  have hhead : c = '"' := by
    have : (c :: (ds ++ suf.data)).head? = ('"' :: ((intStr n).data ++ ('"' :: suf.data))).head? := by
      rw [← List.cons_append, h2]
      rfl
    simpa using this
  subst hhead
  revert hc
  decide

/-- A wrapper object string starts with a brace, a bare integer does not. -/
theorem intStr_ne_braced (n : Int) (suf : String) : ¬(intStr n = "\x7b" ++ suf) := by
  intro h
  have hdata := congrArg String.data h
  obtain ⟨c, ds, hd, hc⟩ := intStr_head n
  rw [hd] at hdata
  have hhead : c = '\x7b' := by
    have : (c :: ds).head? = ('\x7b' :: suf.data).head? := by rw [hdata]; rfl
    simpa using this
  subst hhead
  revert hc
  decide

/-- Binding the rendered integer through the `,string` tag recovers it. -/
theorem bindI64Str_intStr (n : Int) (h1 : -(2 ^ 63) ≤ n) (h2 : n < 2 ^ 63) :
    bindI64Str (.str (intStr n)) = some n := by
  show (match jsonIntChars (intStr n).data with
    | some m => if -(2 ^ 63) ≤ m && m < 2 ^ 63 then some m else none
    | none => none) = some n
  rw [jsonIntChars_intStr]
  show (if -(2 ^ 63) ≤ n && n < 2 ^ 63 then some n else none) = some n
  rw [if_pos]
  simpa using ⟨h1, h2⟩

theorem bindI32Str_intStr (n : Int) (h1 : -(2 ^ 31) ≤ n) (h2 : n < 2 ^ 31) :
    bindI32Str (.str (intStr n)) = some n := by
  show (match jsonIntChars (intStr n).data with
    | some m => if -(2 ^ 31) ≤ m && m < 2 ^ 31 then some m else none
    | none => none) = some n
  rw [jsonIntChars_intStr]
  show (if -(2 ^ 31) ≤ n && n < 2 ^ 31 then some n else none) = some n
  rw [if_pos]
  simpa using ⟨h1, h2⟩

/-- Lexing `ObjectId("h")` for an arbitrary plain argument string. -/
theorem lexOidStr (h : String) (hp : strPlain h = true) :
    lexRun .top ("ObjectId(\"" ++ h ++ "\")").data =
      .ok [.ident "ObjectId", .lparen, .str h, .rparen] := by
  have hd : ("ObjectId(\"" ++ h ++ "\")").data =
      "ObjectId(\"".data ++ (h.data ++ ('"' :: [')'])) := by
    rw [strData_append, strData_append, List.append_assoc]
  rw [hd]
  have step1 : ∀ X, lexRun .top ("ObjectId(\"".data ++ X) =
      (lexRun (.str []) X).map (fun ts => .ident "ObjectId" :: .lparen :: ts) := fun _ => rfl
  rw [step1, lexQuoted _ _ hp]
  rfl

/-- Lexing the keyed form `{"$oid":"h"}`. -/
theorem lexOidKeyed (h : String) (hp : strPlain h = true) :
    lexRun .top ("\x7b\"$oid\":\"" ++ h ++ "\"\x7d").data =
      .ok [.lbrace, .str "$oid", .colon, .str h, .rbrace] := by
  have hd : ("\x7b\"$oid\":\"" ++ h ++ "\"\x7d").data =
      "\x7b\"$oid\":\"".data ++ (h.data ++ ('"' :: ['\x7d'])) := by
    rw [strData_append, strData_append, List.append_assoc]
  rw [hd]
  have step1 : ∀ X, lexRun .top ("\x7b\"$oid\":\"".data ++ X) =
      (((lexRun (.str []) X).map (fun ts => Tok.colon :: ts)).map
        (fun ts => Tok.str "$oid" :: ts)).map (fun ts => Tok.lbrace :: ts) := fun _ => rfl
  rw [step1, lexQuoted _ _ hp]
  rfl

theorem head_of_append3 {p : String} {c : Char} (hp : p.data.head? = some c) (a b : String) :
    (p ++ a ++ b).data.head? = some c := by
  rw [strData_append, strData_append]
  cases hd : p.data with
  | nil => rw [hd] at hp; simp at hp
  | cons x xs =>
    rw [hd] at hp
    simp only [List.head?_cons, Option.some.injEq] at hp
    subst hp
    simp

theorem intStr_ne_of_brace (n : Int) (s : String) (hs : s.data.head? = some '\x7b') :
    intStr n ≠ s := by
  intro h
  obtain ⟨c, ds, hd, hc⟩ := intStr_head n
  rw [← h, hd] at hs
  simp only [List.head?_cons, Option.some.injEq] at hs
  subst hs
  revert hc
  decide

/-- An unquoted wrapper rendering never coincides with the quoted one. -/
theorem wrapped_unquoted_ne_quoted (p : String) (n : Int) :
    (p ++ intStr n ++ "\x7d" : String) ≠ (p ++ "\"") ++ intStr n ++ "\"\x7d" := by
  intro h
  have hdata := congrArg String.data h
  rw [strData_append, strData_append, strData_append, strData_append,
    show ("\"\x7d" : String).data = ['"', '\x7d'] from rfl,
    show ("\x7d" : String).data = ['\x7d'] from rfl,
    show ((p ++ "\"" : String)).data = p.data ++ ['"'] from strData_append p "\"",
    List.append_assoc, List.append_assoc, List.append_assoc] at hdata
  have h2 := List.append_cancel_left hdata
  obtain ⟨c, ds, hd, hc⟩ := intStr_head n
  rw [hd] at h2
  have hhead : c = '"' := by
    have h3 := congrArg List.head? h2
    simpa using h3
  subst hhead
  revert hc
  decide

/-- C2, claim as stated, is false: the extended binary encoding renders the
subtype with `%x`, so subtype 255 appears as `ff`, not `255`. -/
theorem c2_counterexample : jencExtendedBinaryType 255 [] ≠ "BinData(255,\"\")" := by decide

/-- C2 (amended): the extended encoding of a binary value is
`BinData(h,"<base64>")` where `h` is the lowercase hexadecimal (not the
decimal) rendering of the subtype; the two renderings coincide exactly for
subtypes 0-9. -/
theorem c2_amended_binData_subtype_hex : ∀ (s : Nat) (b : List Nat), s < 256 →
    jencExtendedBinaryType s b = "BinData(" ++ goHexStr s ++ ",\"" ++ b64Encode b ++ "\")"
    ∧ (s ≤ 9 → goHexStr s = natStr s)
    ∧ (10 ≤ s → goHexStr s ≠ natStr s) := by
  intro s b hs
  refine ⟨rfl, fun h9 => ?_, fun h10 => ?_⟩
  · exact strExt (goHexStr_digit s (by omega))
  · have key : ∀ m, m < 256 → 10 ≤ m → goHexStr m ≠ natStr m := by decide
    exact key s hs h10

theorem c2_witness :
    jencExtendedBinaryType 2 [102, 111, 111] =
      "BinData(" ++ goHexStr 2 ++ ",\"" ++ b64Encode [102, 111, 111] ++ "\")"
    ∧ goHexStr 2 = natStr 2 := by
  have h := c2_amended_binData_subtype_hex 2 [102, 111, 111] (by omega)
  exact ⟨h.1, h.2.1 (by omega)⟩

/-- C3, claim as stated, is false: a native `int` below the threshold is
encoded canonically as a bare literal, not as a `$numberLong` wrapper. -/
theorem c3_counterexample : jencInt 1 ≠ "\x7b\"$numberLong\":1\x7d" := by decide

/-- C3 (amended): the canonical encoding of a native `int` is the plain
decimal literal when `n ≤ 2^53` (differing from the 64-bit `$numberLong`
rule), and the quoted `$numberLong` wrapper (agreeing with the 64-bit rule)
when `n > 2^53`. -/
theorem c3_amended_jencInt_rule : ∀ n : Int,
    (n ≤ 2 ^ 53 → jencInt n = intStr n ∧ jencInt n ≠ jencNumberLong n)
    ∧ (2 ^ 53 < n → jencInt n = "\x7b\"$numberLong\":\"" ++ intStr n ++ "\"\x7d"
        ∧ jencInt n = jencNumberLong n) := by
  intro n
  constructor
  · intro hle
    refine ⟨by rw [jencInt, if_pos hle], ?_⟩
    rw [jencInt, if_pos hle, jencNumberLong, if_pos hle]
    exact intStr_ne_of_brace n _
      (@head_of_append3 "\x7b\"$numberLong\":" '\x7b' rfl (intStr n) "\x7d")
  · intro hgt
    have hnot : ¬(n ≤ 2 ^ 53) := by omega
    exact ⟨by rw [jencInt, if_neg hnot], by rw [jencInt, if_neg hnot, jencNumberLong, if_neg hnot]⟩

theorem c3_witness :
    jencInt 1 = intStr 1 ∧ jencInt 1 ≠ jencNumberLong 1
    ∧ jencInt 9007199254740993 = "\x7b\"$numberLong\":\"" ++ intStr 9007199254740993 ++ "\"\x7d" := by
  have h1 := (c3_amended_jencInt_rule 1).1 (by omega)
  have h2 := (c3_amended_jencInt_rule 9007199254740993).2 (by omega)
  exact ⟨h1.1, h1.2, h2.1⟩

/-- C4, claim as stated, is false: the canonical encoding of a raw byte
slice does carry a `$type` field (always `"0x0"`). -/
theorem c4_counterexample :
    jencBinarySlice [102, 111, 111] = "\x7b\"$binary\":\"Zm9v\",\"$type\":\"0x0\"\x7d"
    ∧ jencBinarySlice [102, 111, 111] ≠ "\x7b\"$binary\":\"Zm9v\"\x7d" := by
  exact ⟨rfl, by decide⟩

/-- C4 (amended): a raw `[]byte` encodes canonically with an explicit
`"$type":"0x0"` field, identically to a `primitive.Binary` wrapper of
subtype 0; a `Binary` wrapper renders its subtype in hex after `0x`. -/
theorem c4_amended_slice_has_type_field : ∀ b : List Nat,
    jencBinarySlice b = "\x7b\"$binary\":\"" ++ b64Encode b ++ "\",\"$type\":\"0x0\"\x7d"
    ∧ jencBinarySlice b = jencBinaryType 0 b
    ∧ ∀ s : Nat, s < 256 →
        jencBinaryType s b =
          "\x7b\"$binary\":\"" ++ b64Encode b ++ "\",\"$type\":\"0x" ++ goHexStr s ++ "\"\x7d" := by
  intro b
  refine ⟨rfl, ?_, fun s _ => ?_⟩
  · apply strExt
    simp only [jencBinarySlice, jencBinaryType, strData_append, List.append_assoc]
    rfl
  · apply strExt
    simp only [jencBinaryType, strData_append, List.append_assoc]

theorem c4_witness :
    jencBinaryType 2 [102, 111, 111] =
      "\x7b\"$binary\":\"" ++ b64Encode [102, 111, 111] ++ "\",\"$type\":\"0x" ++ goHexStr 2 ++ "\"\x7d" :=
  (c4_amended_slice_has_type_field [102, 111, 111]).2.2 2 (by omega)

/-- C5: the canonical 64-bit integer encoding is unquoted exactly up to
`2^53` and quoted above it (10 unquoted, 9007199254740993 quoted), and the
canonical 32-bit integer encoding is unquoted exactly up to `2^21`; the
quoted and unquoted forms never coincide. -/
theorem c5_numeric_threshold_quoting :
    (∀ n : Int,
      (n ≤ 2 ^ 53 → jencNumberLong n = "\x7b\"$numberLong\":" ++ intStr n ++ "\x7d")
      ∧ (2 ^ 53 < n → jencNumberLong n = "\x7b\"$numberLong\":\"" ++ intStr n ++ "\"\x7d")
      ∧ ("\x7b\"$numberLong\":" ++ intStr n ++ "\x7d" : String) ≠
          "\x7b\"$numberLong\":\"" ++ intStr n ++ "\"\x7d")
    ∧ (∀ m : Int,
      (m ≤ 2 ^ 21 → jencNumberInt m = "\x7b\"$numberInt\":" ++ intStr m ++ "\x7d")
      ∧ (2 ^ 21 < m → jencNumberInt m = "\x7b\"$numberInt\":\"" ++ intStr m ++ "\"\x7d")
      ∧ ("\x7b\"$numberInt\":" ++ intStr m ++ "\x7d" : String) ≠
          "\x7b\"$numberInt\":\"" ++ intStr m ++ "\"\x7d")
    ∧ jencNumberLong 10 = "\x7b\"$numberLong\":10\x7d"
    ∧ jencNumberLong 9007199254740993 = "\x7b\"$numberLong\":\"9007199254740993\"\x7d" := by
  refine ⟨fun n => ⟨fun h => by rw [jencNumberLong, if_pos h],
      fun h => by rw [jencNumberLong, if_neg (by omega)],
      wrapped_unquoted_ne_quoted "\x7b\"$numberLong\":" n⟩,
    fun m => ⟨fun h => by rw [jencNumberInt, if_pos h],
      fun h => by rw [jencNumberInt, if_neg (by omega)],
      wrapped_unquoted_ne_quoted "\x7b\"$numberInt\":" m⟩,
    rfl, rfl⟩

theorem c5_witness :
    jencNumberLong 10 = "\x7b\"$numberLong\":" ++ intStr 10 ++ "\x7d"
    ∧ jencNumberLong 9007199254740993 = "\x7b\"$numberLong\":\"" ++ intStr 9007199254740993 ++ "\"\x7d"
    ∧ jencNumberInt 26 = "\x7b\"$numberInt\":" ++ intStr 26 ++ "\x7d" := by
  exact ⟨(c5_numeric_threshold_quoting.1 10).1 (by omega),
    (c5_numeric_threshold_quoting.1 9007199254740993).2.1 (by omega),
    (c5_numeric_threshold_quoting.2.1 26).1 (by omega)⟩

/-! ## C6: quoted vs native numeric wrapper payloads -/

theorem jdecNumberLong_keyed_num (n : Int) (h1 : -(2 ^ 63) ≤ n) (h2 : n < 2 ^ 63) :
    jdecNumberLong (.obj [("$numberLong", .num n)]) = .ok (.int64 n) := by
  have hstr : bindNumStruct "$numberLong" bindI64Str (.obj [("$numberLong", .num n)]) =
      ((0, 0), some .bindErr) := by
    simp only [bindNumStruct, bindNumFields, bindNumInner, bindI64Str, keepErr]
    simp
  have hnum : bindNumStruct "$numberLong" bindI64 (.obj [("$numberLong", .num n)]) =
      ((n, 0), none) := by
    simp only [bindNumStruct, bindNumFields, bindNumInner, bindI64_num n h1 h2, keepErr]
    simp
  rw [jdecNumberLong, hstr, hnum]
  by_cases hn : n = 0
  · subst hn; simp
  · simp [hn]

theorem jdecNumberLong_keyed_str (n : Int) (h1 : -(2 ^ 63) ≤ n) (h2 : n < 2 ^ 63) :
    jdecNumberLong (.obj [("$numberLong", .str (intStr n))]) = .ok (.int64 n) := by
  have hstr : bindNumStruct "$numberLong" bindI64Str (.obj [("$numberLong", .str (intStr n))]) =
      ((n, 0), none) := by
    simp only [bindNumStruct, bindNumFields, bindNumInner, bindI64Str_intStr n h1 h2, keepErr]
    simp
  rw [jdecNumberLong, hstr]
  by_cases hn : n = 0
  · subst hn; simp
  · simp [hn]

theorem jdecNumberInt_keyed_num (n : Int) (h1 : -(2 ^ 31) ≤ n) (h2 : n < 2 ^ 31) :
    jdecNumberInt (.obj [("$numberInt", .num n)]) = .ok (.int32 n) := by
  have hstr : bindNumStruct "$numberInt" bindI32Str (.obj [("$numberInt", .num n)]) =
      ((0, 0), some .bindErr) := by
    simp only [bindNumStruct, bindNumFields, bindNumInner, bindI32Str, keepErr]
    simp
  have hnum : bindNumStruct "$numberInt" bindI32 (.obj [("$numberInt", .num n)]) =
      ((n, 0), none) := by
    simp only [bindNumStruct, bindNumFields, bindNumInner, bindI32_num n h1 h2, keepErr]
    simp
  rw [jdecNumberInt, hstr, hnum]
  by_cases hn : n = 0
  · subst hn; simp
  · simp [hn]

theorem jdecNumberInt_keyed_str (n : Int) (h1 : -(2 ^ 31) ≤ n) (h2 : n < 2 ^ 31) :
    jdecNumberInt (.obj [("$numberInt", .str (intStr n))]) = .ok (.int32 n) := by
  have hstr : bindNumStruct "$numberInt" bindI32Str (.obj [("$numberInt", .str (intStr n))]) =
      ((n, 0), none) := by
    simp only [bindNumStruct, bindNumFields, bindNumInner, bindI32Str_intStr n h1 h2, keepErr]
    simp
  rw [jdecNumberInt, hstr]
  by_cases hn : n = 0
  · subst hn; simp
  · simp [hn]

theorem jdecNumberDecimal_keyed_str (s : String) (hv : validDecStr s = true)
    (hp : strPlain s = true) :
    jdecNumberDecimal (.obj [("$numberDecimal", .str s)]) = .ok (.dec128 ⟨s⟩) := by
  have hq : bindStrQ (.str s) = none := jsonUnquote_of_plain s hp
  have hstr : bindDecStruct bindStrQ (.obj [("$numberDecimal", .str s)]) =
      (("", ""), some .bindErr) := by
    simp only [bindDecStruct, bindDecFields, bindDecInner, hq, keepErr]
    simp
  have hplain : bindDecStruct bindStr (.obj [("$numberDecimal", .str s)]) =
      ((s, ""), none) := by
    simp only [bindDecStruct, bindDecFields, bindDecInner, bindStr, keepErr]
    simp
  have hpd : parseDecimal128 s = some (⟨s⟩ : Decimal128) := by
    rw [parseDecimal128, if_pos hv]
  rw [jdecNumberDecimal, hstr, hplain]
  simp only [finishDecimal, hpd]

/-- C6, claim as stated, is false: a native (unquoted) number inside
`$numberDecimal` fails to decode, while the quoted form succeeds, so the
two forms do not decode identically. -/
theorem c6_counterexample :
    jdecNumberDecimal (.obj [("$numberDecimal", .num 5)]) = .error .bindErr
    ∧ jdecNumberDecimal (.obj [("$numberDecimal", .str "5")]) = .ok (.dec128 ⟨"5"⟩) := by
  exact ⟨rfl, rfl⟩

/-- C6 (amended): the `$numberLong` and `$numberInt` wrappers accept the
value as a native number or as a quoted string with identical results; the
`$numberDecimal` wrapper accepts only the quoted-string form — a native
number payload is a decode error (both of its binding structs carry string
fields). -/
theorem c6_amended_wrapper_leniency :
    (∀ n : Int, -(2 ^ 63) ≤ n → n < 2 ^ 63 →
      jdecNumberLong (.obj [("$numberLong", .num n)]) = .ok (.int64 n)
      ∧ jdecNumberLong (.obj [("$numberLong", .str (intStr n))]) = .ok (.int64 n))
    ∧ (∀ n : Int, -(2 ^ 31) ≤ n → n < 2 ^ 31 →
      jdecNumberInt (.obj [("$numberInt", .num n)]) = .ok (.int32 n)
      ∧ jdecNumberInt (.obj [("$numberInt", .str (intStr n))]) = .ok (.int32 n))
    ∧ (∀ s : String, validDecStr s = true → strPlain s = true →
      jdecNumberDecimal (.obj [("$numberDecimal", .str s)]) = .ok (.dec128 ⟨s⟩))
    ∧ (∀ n : Int, jdecNumberDecimal (.obj [("$numberDecimal", .num n)]) = .error .bindErr) :=
  ⟨fun n h1 h2 => ⟨jdecNumberLong_keyed_num n h1 h2, jdecNumberLong_keyed_str n h1 h2⟩,
    fun n h1 h2 => ⟨jdecNumberInt_keyed_num n h1 h2, jdecNumberInt_keyed_str n h1 h2⟩,
    jdecNumberDecimal_keyed_str,
    fun _ => rfl⟩

theorem c6_witness :
    jdecNumberLong (.obj [("$numberLong", .num 10)]) = .ok (.int64 10)
    ∧ jdecNumberLong (.obj [("$numberLong", .str (intStr 10))]) = .ok (.int64 10)
    ∧ jdecNumberInt (.obj [("$numberInt", .num 26)]) = .ok (.int32 26)
    ∧ jdecNumberDecimal (.obj [("$numberDecimal", .str "2.5")]) = .ok (.dec128 ⟨"2.5"⟩) := by
  have h1 := c6_amended_wrapper_leniency.1 10 (by omega) (by omega)
  have h2 := c6_amended_wrapper_leniency.2.1 26 (by omega) (by omega)
  have h3 := c6_amended_wrapper_leniency.2.2.1 "2.5" (by decide) (by decide)
  exact ⟨h1.1, h1.2, h2.1, h3⟩

/-! ## C7: `$minKey` / `$maxKey` accept exactly the value 1 -/

theorem jdecMinKey_num (n : Int) :
    jdecMinKey (.obj [("$minKey", .num n)]) =
      if -(2 ^ 63) ≤ n ∧ n < 2 ^ 63 then
        (if n = 1 then .ok .minKey else .error .invalidMinKey)
      else .error .bindErr := by
  by_cases hr : -(2 ^ 63) ≤ n ∧ n < 2 ^ 63
  · rw [if_pos hr]
    have hb := bindI64_num n hr.1 hr.2
    simp only [jdecMinKey, bindMinKeyStruct, bindMinKeyFields, hb, keepErr]
    by_cases h1 : n = 1
    · subst h1; simp
    · simp [h1]
  · rw [if_neg hr]
    have hb : bindI64 (.num n) = none := by
      simp only [bindI64]
      rw [if_neg]
      simp only [Bool.and_eq_true, decide_eq_true_eq, not_and]
      omega
    simp only [jdecMinKey, bindMinKeyStruct, bindMinKeyFields, hb, keepErr]
    simp

theorem jdecMaxKey_num (n : Int) :
    jdecMaxKey (.obj [("$maxKey", .num n)]) =
      if -(2 ^ 63) ≤ n ∧ n < 2 ^ 63 then
        (if n = 1 then .ok .maxKey else .error .invalidMaxKey)
      else .error .bindErr := by
  by_cases hr : -(2 ^ 63) ≤ n ∧ n < 2 ^ 63
  · rw [if_pos hr]
    have hb := bindI64_num n hr.1 hr.2
    simp only [jdecMaxKey, bindMaxKeyStruct, bindMaxKeyFields, hb, keepErr]
    by_cases h1 : n = 1
    · subst h1; simp
    · simp [h1]
  · rw [if_neg hr]
    have hb : bindI64 (.num n) = none := by
      simp only [bindI64]
      rw [if_neg]
      simp only [Bool.and_eq_true, decide_eq_true_eq, not_and]
      omega
    simp only [jdecMaxKey, bindMaxKeyStruct, bindMaxKeyFields, hb, keepErr]
    simp

/-- Shared shape for every payload that makes both hooks fail. -/
theorem c7_case_err (v : Sval) (e1 e2 : DecErr) (hne : ¬(v = .num 1))
    (h1 : jdecMinKey (.obj [("$minKey", v)]) = .error e1)
    (h2 : jdecMaxKey (.obj [("$maxKey", v)]) = .error e2) :
    (jdecMinKey (.obj [("$minKey", v)]) = .ok .minKey ↔ v = .num 1)
    ∧ (jdecMaxKey (.obj [("$maxKey", v)]) = .ok .maxKey ↔ v = .num 1)
    ∧ (∀ r, jdecMinKey (.obj [("$minKey", v)]) = .ok r → r = .minKey)
    ∧ (∀ r, jdecMaxKey (.obj [("$maxKey", v)]) = .ok r → r = .maxKey) := by
  rw [h1, h2]
  refine ⟨by simp [hne], by simp [hne], fun r h => by simp at h, fun r h => by simp at h⟩

/-- C7: decoding `{"$minKey":v}` succeeds (with the MinKey sentinel)
exactly when `v` is the number 1, and likewise for `{"$maxKey":v}`; any
other payload is a decode error, and a success can only return the
sentinel. -/
theorem c7_minmax_exactly_one : ∀ v : Sval,
    (jdecMinKey (.obj [("$minKey", v)]) = .ok .minKey ↔ v = .num 1)
    ∧ (jdecMaxKey (.obj [("$maxKey", v)]) = .ok .maxKey ↔ v = .num 1)
    ∧ (∀ r, jdecMinKey (.obj [("$minKey", v)]) = .ok r → r = .minKey)
    ∧ (∀ r, jdecMaxKey (.obj [("$maxKey", v)]) = .ok r → r = .maxKey) := by
  intro v
  cases v with
  | num n =>
    by_cases hr : -(2 ^ 63) ≤ n ∧ n < 2 ^ 63
    · by_cases h1 : n = 1
      · subst h1
        refine ⟨by simp [jdecMinKey_num], by simp [jdecMaxKey_num], fun r h => ?_, fun r h => ?_⟩
        · rw [jdecMinKey_num] at h
          simp at h
          exact h.symm
        · rw [jdecMaxKey_num] at h
          simp at h
          exact h.symm
      · refine ⟨?_, ?_, fun r h => ?_, fun r h => ?_⟩
        · rw [jdecMinKey_num n, if_pos hr, if_neg h1]
          simp [h1]
        · rw [jdecMaxKey_num n, if_pos hr, if_neg h1]
          simp [h1]
        · rw [jdecMinKey_num n, if_pos hr, if_neg h1] at h
          simp at h
        · rw [jdecMaxKey_num n, if_pos hr, if_neg h1] at h
          simp at h
    · have h1 : ¬(n = 1) := by omega
      refine ⟨?_, ?_, fun r h => ?_, fun r h => ?_⟩
      · rw [jdecMinKey_num n, if_neg hr]
        simp [h1]
      · rw [jdecMaxKey_num n, if_neg hr]
        simp [h1]
      · rw [jdecMinKey_num n, if_neg hr] at h
        simp at h
      · rw [jdecMaxKey_num n, if_neg hr] at h
        simp at h
  | null => exact c7_case_err _ _ _ (by simp) rfl rfl
  | bool b => exact c7_case_err _ _ _ (by simp) rfl rfl
  | numF w => exact c7_case_err _ _ _ (by simp) rfl rfl
  | str s => exact c7_case_err _ _ _ (by simp) rfl rfl
  | arr xs => exact c7_case_err _ _ _ (by simp) rfl rfl
  | obj fs => exact c7_case_err _ _ _ (by simp) rfl rfl
  | konst k => exact c7_case_err _ _ _ (by simp) rfl rfl

theorem c7_witness :
    jdecMinKey (.obj [("$minKey", .num 1)]) = .ok .minKey
    ∧ jdecMaxKey (.obj [("$maxKey", .num 1)]) = .ok .maxKey
    ∧ ¬(jdecMinKey (.obj [("$minKey", .num 2)]) = .ok .minKey) := by
  refine ⟨(c7_minmax_exactly_one (.num 1)).1.mpr rfl,
    (c7_minmax_exactly_one (.num 1)).2.1.mpr rfl, fun h => ?_⟩
  have := (c7_minmax_exactly_one (.num 2)).1.mp h
  simp at this

/-! ## C8: date decoding -/

/-- C8: a string `$date` payload is tried against the RFC3339-millisecond
layout first and the date-only layout second, the first successful parse
winning, with an error when neither parses; a
`{"$date":{"$numberLong":"m"}}` payload yields the UTC instant `m`
milliseconds after the Unix epoch. -/
theorem c8_date_formats_and_millis :
    (∀ s : String,
      jdecDate (.obj [("$date", .str s)]) =
        (match parseRFC3339Millis s with
         | some t => .ok (.time t.1 t.2)
         | none =>
           match parseDateOnly s with
           | some t => .ok (.time t.1 t.2)
           | none => .error .invalidDate))
    ∧ (∀ m : Int, -(2 ^ 63) ≤ m → m < 2 ^ 63 →
      jdecDate (.obj [("$date", .obj [("$numberLong", .str (intStr m))])]) =
        .ok (.time m 0)) := by
  constructor
  · intro s
    by_cases hs : s = ""
    · subst hs
      rfl
    · have hv : bindDateVStruct (.obj [("$date", .str s)]) = ((s, ""), none) := rfl
      simp only [jdecDate, hv]
      rw [if_neg hs, if_pos hs]
  · intro m h1 h2
    have hvn : bindDateVnStruct (.obj [("$date", .obj [("$numberLong", .str (intStr m))])]) =
        ((m, 0), none) := by
      simp only [bindDateVnStruct, bindDateVnFields, bindDateNInner,
        bindI64Str_intStr m h1 h2, keepErr]
      simp
    have key : jdecDate (.obj [("$date", .obj [("$numberLong", .str (intStr m))])]) =
        (match bindDateVnStruct (.obj [("$date", .obj [("$numberLong", .str (intStr m))])]) with
         | (_, some _) => .error .invalidDate
         | ((n0, f), none) => .ok (timeUnixMillisUTC (if n0 = 0 then f else n0))) := rfl
    rw [key, hvn]
    have harith : ∀ k : Int, 1000 * k.tdiv 1000 + (k.tmod 1000 * 1000000).tdiv 1000000 = k := by
      intro k
      have hc : (k.tmod 1000 * 1000000).tdiv 1000000 = k.tmod 1000 :=
        Int.mul_tdiv_cancel _ (by norm_num)
      rw [hc]
      exact Int.tdiv_add_tmod k 1000
    by_cases hm : m = 0
    · subst hm
      rfl
    · simp only [if_neg hm, timeUnixMillisUTC, harith]

theorem c8_witness :
    jdecDate (.obj [("$date", .str "2016-05-15T01:02:03.004Z")]) = .ok (.time 1463274123004 0)
    ∧ jdecDate (.obj [("$date", .str "1994-09-06")]) = .ok (.time 778809600000 0)
    ∧ jdecDate (.obj [("$date", .str "not a date")]) = .error .invalidDate
    ∧ jdecDate (.obj [("$date", .obj [("$numberLong", .str (intStr 1116374))])]) =
        .ok (.time 1116374 0) := by
  refine ⟨?_, ?_, ?_, c8_date_formats_and_millis.2 1116374 (by omega) (by omega)⟩
  · rw [c8_date_formats_and_millis.1 "2016-05-15T01:02:03.004Z"]
    rfl
  · rw [c8_date_formats_and_millis.1 "1994-09-06"]
    rfl
  · rw [c8_date_formats_and_millis.1 "not a date"]
    rfl

/-! ## C10: `$binary` subtype handling -/

/-- Unfolding `jdecBinary` once the struct binding is known. -/
theorem jdecBinary_unfold (data : Sval) (bOpt : Option (List Nat)) (t : String)
    (fb : Option (List Nat)) (ft : Int)
    (h : bindBinStruct data = ((bOpt, t, fb, ft), none)) :
    jdecBinary data =
      if t = "" && bOpt = none then finishBinary ft (fb.getD [])
      else if t = "" then .ok (.bytes (bOpt.getD []))
      else finishBinary ((goParseInt t).getD (-1)) (bOpt.getD []) := by
  rw [jdecBinary, h]

/-- C10: a keyed `$binary` object with no `$type` (or an empty one)
decodes to the raw byte slice, as does one whose `$type` parses to 0; a
`$type` that fails `strconv.ParseInt` or parses outside `[0,255]` is a
decode error. -/
theorem c10_binary_type_dispatch : ∀ (b : List Nat) (t : String), (∀ x ∈ b, x < 256) →
    (jdecBinary (.obj [("$binary", .str (b64Encode b))]) = .ok (.bytes b))
    ∧ (t = "" →
      jdecBinary (.obj [("$binary", .str (b64Encode b)), ("$type", .str t)]) = .ok (.bytes b))
    ∧ (goParseInt t = some 0 →
      jdecBinary (.obj [("$binary", .str (b64Encode b)), ("$type", .str t)]) = .ok (.bytes b))
    ∧ (goParseInt t = none → ¬(t = "") →
      jdecBinary (.obj [("$binary", .str (b64Encode b)), ("$type", .str t)]) =
        .error .invalidBinary)
    ∧ (∀ k : Int, goParseInt t = some k → (k < 0 ∨ 255 < k) →
      jdecBinary (.obj [("$binary", .str (b64Encode b)), ("$type", .str t)]) =
        .error .invalidBinary) := by
  intro b t hb
  have hby := bindBytes_b64 b hb
  have hstruct1 : bindBinStruct (.obj [("$binary", .str (b64Encode b))]) =
      ((some b, "", none, 0), none) := by
    simp only [bindBinStruct, bindBinFields, hby]
    simp
  have hstruct2 : bindBinStruct (.obj [("$binary", .str (b64Encode b)), ("$type", .str t)]) =
      ((some b, t, none, 0), none) := by
    simp only [bindBinStruct, bindBinFields, bindBinInner, hby, bindStr]
    simp
  have hcondF : ¬((t = "" && (some b : Option (List Nat)) = none) = true) := by simp
  refine ⟨?_, ?_, ?_, ?_, ?_⟩
  · rw [jdecBinary_unfold _ _ _ _ _ hstruct1]
    rfl
  · intro ht
    subst ht
    rw [jdecBinary_unfold _ _ _ _ _ hstruct2]
    rfl
  · intro hp
    have ht : ¬(t = "") := by
      intro h
      subst h
      exact Option.noConfusion hp
    rw [jdecBinary_unfold _ _ _ _ _ hstruct2, if_neg hcondF, if_neg ht, hp]
    rfl
  · intro hp ht
    rw [jdecBinary_unfold _ _ _ _ _ hstruct2, if_neg hcondF, if_neg ht, hp]
    rfl
  · intro k hp hk
    have ht : ¬(t = "") := by
      intro h
      subst h
      exact Option.noConfusion hp
    rw [jdecBinary_unfold _ _ _ _ _ hstruct2, if_neg hcondF, if_neg ht, hp]
    show finishBinary k b = _
    rw [finishBinary, if_neg (by omega), if_pos]
    simp only [Bool.or_eq_true, decide_eq_true_eq]
    omega

theorem c10_witness :
    jdecBinary (.obj [("$binary", .str (b64Encode [102, 111, 111]))]) =
      .ok (.bytes [102, 111, 111])
    ∧ jdecBinary (.obj [("$binary", .str (b64Encode [102, 111, 111])), ("$type", .str "")]) =
      .ok (.bytes [102, 111, 111])
    ∧ jdecBinary (.obj [("$binary", .str (b64Encode [102, 111, 111])), ("$type", .str "0x0")]) =
      .ok (.bytes [102, 111, 111])
    ∧ jdecBinary (.obj [("$binary", .str (b64Encode [102, 111, 111])), ("$type", .str "zz")]) =
      .error .invalidBinary
    ∧ jdecBinary (.obj [("$binary", .str (b64Encode [102, 111, 111])), ("$type", .str "300")]) =
      .error .invalidBinary := by
  refine ⟨(c10_binary_type_dispatch [102, 111, 111] "" (by decide)).1,
    (c10_binary_type_dispatch [102, 111, 111] "" (by decide)).2.1 rfl,
    (c10_binary_type_dispatch [102, 111, 111] "0x0" (by decide)).2.2.1 rfl,
    (c10_binary_type_dispatch [102, 111, 111] "zz" (by decide)).2.2.2.1 rfl (by decide),
    (c10_binary_type_dispatch [102, 111, 111] "300" (by decide)).2.2.2.2 300 rfl (by omega)⟩

/-! ## C1: the extended-mode round trip -/

/-- C1, claim as stated, is false at four concrete inputs: a binary of
subtype 0 decodes to a raw byte slice (not a binary value); a binary of
subtype 255 is rendered with a hex subtype `ff` that cannot be re-parsed;
a timestamp component of `2^31` overflows the decoder's `int32` binding;
and a regex whose pattern is a double quote is emitted unescaped and no
longer parses. -/
theorem c1_counterexample :
    ¬(decodeStr (jencExtendedBinaryType 0 [102, 111, 111]) = .ok (.binary 0 [102, 111, 111]))
    ∧ ¬(decodeStr (jencExtendedBinaryType 255 []) = .ok (.binary 255 []))
    ∧ ¬(decodeStr (jencExtendedTimestamp 2147483648 0) = .ok (.timestamp 2147483648 0))
    ∧ ¬(decodeStr (jencRegEx "\"" "") = .ok (.regex "\"" "")) := by
  refine ⟨fun h => ?_, fun h => ?_, fun h => ?_, fun h => ?_⟩
  · rw [show decodeStr (jencExtendedBinaryType 0 [102, 111, 111]) =
        .ok (.bytes [102, 111, 111]) from rfl] at h
    exact DVal.noConfusion (Except.ok.inj h)
  · rw [show decodeStr (jencExtendedBinaryType 255 []) = .error .synErr from rfl] at h
    exact Except.noConfusion h
  · rw [show decodeStr (jencExtendedTimestamp 2147483648 0) = .error .bindErr from rfl] at h
    exact Except.noConfusion h
  · rw [show decodeStr (jencRegEx "\"" "") = .error .synErr from rfl] at h
    exact Except.noConfusion h

/-- C1 (amended): decoding the extended-mode encoding returns the original
value for: object-ids; timestamps whose components fit in `int32`; binary
values of subtype 1 through 9; regexes whose pattern and options contain no
character needing JSON escaping; decimal128 values with a valid plain
string form (the external parse/print pair being mutually inverse there);
32-bit and 64-bit integers; and undefined.  It fails for binary subtype 0
(raw bytes come back), binary subtypes above 9 (hex-rendered subtype),
timestamp components at or above `2^31`, and regexes containing JSON-special
characters. -/
theorem c1_amended_extended_round_trip :
    (∀ id : List Nat, id.length = 12 → (∀ b ∈ id, b < 256) →
      decodeStr (jencExtendedObjectID id) = .ok (.oid id))
    ∧ (∀ t i : Nat, t < 2 ^ 31 → i < 2 ^ 31 →
      decodeStr (jencExtendedTimestamp t i) = .ok (.timestamp t i))
    ∧ (∀ s : Nat, 1 ≤ s → s ≤ 9 → ∀ data : List Nat, (∀ b ∈ data, b < 256) →
      decodeStr (jencExtendedBinaryType s data) = .ok (.binary s data))
    ∧ (∀ p o : String, strPlain p = true → strPlain o = true →
      decodeStr (jencRegEx p o) = .ok (.regex p o))
    ∧ (∀ d : Decimal128, validDecStr d.repr = true → strPlain d.repr = true →
      decodeStr (jencExtendedNumberDecimal d) = .ok (.dec128 d))
    ∧ (∀ n : Int, -(2 ^ 31) ≤ n → n < 2 ^ 31 →
      (decodeStr (jencExtendedNumberInt n)).bind asInt32 = .ok n)
    ∧ (∀ n : Int, -(2 ^ 63) ≤ n → n < 2 ^ 63 →
      decodeStr (jencExtendedNumberLong n) = .ok (.int64 n))
    ∧ decodeStr jencExtendedUndefined = .ok .undefined :=
  ⟨decodeOidExt, decodeTimestampExt,
    fun s h1 h9 data hb => decodeBinaryExt s h1 h9 data hb,
    decodeRegexExt, decodeDecimalExt, decodeNumberIntExt, decodeNumberLongExt,
    decodeUndefinedExt⟩

theorem c1_witness :
    decodeStr (jencExtendedObjectID [90, 147, 78, 0, 1, 2, 3, 4, 5, 0, 0, 0]) =
      .ok (.oid [90, 147, 78, 0, 1, 2, 3, 4, 5, 0, 0, 0])
    ∧ decodeStr (jencExtendedTimestamp 1 2) = .ok (.timestamp 1 2)
    ∧ decodeStr (jencExtendedBinaryType 2 [102, 111, 111]) = .ok (.binary 2 [102, 111, 111])
    ∧ decodeStr (jencRegEx "abc" "i") = .ok (.regex "abc" "i")
    ∧ decodeStr (jencExtendedNumberDecimal ⟨"2.5"⟩) = .ok (.dec128 ⟨"2.5"⟩)
    ∧ (decodeStr (jencExtendedNumberInt 26)).bind asInt32 = .ok 26
    ∧ decodeStr (jencExtendedNumberLong 64) = .ok (.int64 64)
    ∧ decodeStr jencExtendedUndefined = .ok .undefined :=
  ⟨c1_amended_extended_round_trip.1 _ (by decide) (by decide),
    c1_amended_extended_round_trip.2.1 1 2 (by omega) (by omega),
    c1_amended_extended_round_trip.2.2.1 2 (by omega) (by omega) _ (by decide),
    c1_amended_extended_round_trip.2.2.2.1 "abc" "i" (by decide) (by decide),
    c1_amended_extended_round_trip.2.2.2.2.1 ⟨"2.5"⟩ (by decide) (by decide),
    c1_amended_extended_round_trip.2.2.2.2.2.1 26 (by omega) (by omega),
    c1_amended_extended_round_trip.2.2.2.2.2.2.1 64 (by omega) (by omega),
    c1_amended_extended_round_trip.2.2.2.2.2.2.2⟩

/-! ## C9: constructor and keyed object-id forms -/

/-- C9: `ObjectId("5a934e000102030405000000")` and
`{"$oid":"5a934e000102030405000000"}` decode to the identical object-id;
in general both surface forms are routed to the same decoder
(`jdecObjectID`) and produce equal results. -/
theorem c9_constructor_keyed_equivalence :
    decodeStr "ObjectId(\"5a934e000102030405000000\")" =
      .ok (.oid [90, 147, 78, 0, 1, 2, 3, 4, 5, 0, 0, 0])
    ∧ decodeStr "\x7b\"$oid\":\"5a934e000102030405000000\"\x7d" =
      .ok (.oid [90, 147, 78, 0, 1, 2, 3, 4, 5, 0, 0, 0])
    ∧ (∀ h : String, strPlain h = true →
        decodeStr ("ObjectId(\"" ++ h ++ "\")") =
          jdecObjectID (.obj [("$oidFunc", .obj [("Id", .str h)])])
        ∧ decodeStr ("\x7b\"$oid\":\"" ++ h ++ "\"\x7d") =
          jdecObjectID (.obj [("$oid", .str h)])
        ∧ decodeStr ("ObjectId(\"" ++ h ++ "\")") =
            decodeStr ("\x7b\"$oid\":\"" ++ h ++ "\"\x7d")) := by
  refine ⟨rfl, rfl, fun h hp => ?_⟩
  have k1 : decodeStr ("ObjectId(\"" ++ h ++ "\")") =
      jdecObjectID (.obj [("$oidFunc", .obj [("Id", .str h)])]) := by
    rw [decodeStr, lexOidStr h hp]
    rfl
  have k2 : decodeStr ("\x7b\"$oid\":\"" ++ h ++ "\"\x7d") =
      jdecObjectID (.obj [("$oid", .str h)]) := by
    rw [decodeStr, lexOidKeyed h hp]
    rfl
  refine ⟨k1, k2, ?_⟩
  rw [k1, k2]
  by_cases hh : h = ""
  · subst hh
    rfl
  · have e1 : jdecObjectID (.obj [("$oidFunc", .obj [("Id", .str h)])]) =
        (match objectIDFromHex h with
         | some bs => .ok (.oid bs)
         | none => .error .invalidOid) := rfl
    have e2 : jdecObjectID (.obj [("$oid", .str h)]) =
        (match objectIDFromHex (if h = "" then "" else h) with
         | some bs => .ok (.oid bs)
         | none => .error .invalidOid) := rfl
    rw [e1, e2, if_neg hh]

theorem c9_witness :
    decodeStr ("ObjectId(\"" ++ "5a934e000102030405000000" ++ "\")") =
      decodeStr ("\x7b\"$oid\":\"" ++ "5a934e000102030405000000" ++ "\"\x7d") :=
  ((c9_constructor_keyed_equivalence.2.2 "5a934e000102030405000000" (by decide)).2.2)
